import Mathlib

/-!
Verification of the rtsp-rs RTSP/RTP streaming engine.

Shallow embedding of the core crate (mount registry, port allocator,
RTSP request parsing, RTSP method handler, RTP header serialization and
the H.264 packetizer) as pure Lean functions, together with theorems
about them.  Rust strings are modelled as `List Char`, byte slices as
`List Nat` (each element a byte value), and machine-integer overflow is
made explicit with `% 2^w`.
-/

namespace RtspRs

/-! ### Machine-integer moduli -/
def U16_MOD : Nat := 65536

def U32_MOD : Nat := 4294967296

def U64_MOD : Nat := 18446744073709551616

/-! ### String helpers shared by several modules

`stripPre` models Rust `str::strip_prefix`, `trimL` models `str::trim`
(restricted to the ASCII whitespace characters that can actually appear
in RTSP messages), `rfindSub` models `str::rfind(pattern)` and
`containsSub` models `str::contains(pattern)`. -/
def stripPre : List Char → List Char → Option (List Char)
  | [], l => some l
  | _ :: _, [] => none
  | p :: ps, c :: cs => if p = c then stripPre ps cs else none

def rustIsWhitespace (c : Char) : Bool :=
  c = ' ' || c = '\t' || c = '\n' || c = '\r' || c = '\x0b' || c = '\x0c'

def trimL (l : List Char) : List Char :=
  ((l.dropWhile rustIsWhitespace).reverse.dropWhile rustIsWhitespace).reverse

def rfindSub (pat l : List Char) : Option Nat :=
  ((List.range (l.length + 1)).filter (fun i => pat.isPrefixOf (l.drop i))).getLast?

def containsSub (pat l : List Char) : Bool :=
  (List.range (l.length + 1)).any (fun i => pat.isPrefixOf (l.drop i))

/-! ### Mount path extraction (src/crates/core/src/mount.rs) -/
def DEFAULT_MOUNT_PATH : List Char := ("/stream").toList

/-- The `rfind("/track")` suffix strip at the end of `extract_mount_path`. -/
def stripTrackSuffix (path : List Char) : List Char :=
  match rfindSub (("/track").toList) path with
  | some pos => path.take pos
  | none => path

/-- The `let path = ...` part of `extract_mount_path`: scheme stripping,
substring from the first slash, raw-path and default cases. -/
def rawMountPath (uri : List Char) : List Char :=
  match (stripPre (("rtsp://").toList) uri).or (stripPre (("rtsps://").toList) uri) with
  | some after =>
    match after.findIdx? (fun c => c = '/') with
    | some slash => after.drop slash
    | none => DEFAULT_MOUNT_PATH
  | none =>
    match uri with
    | '/' :: _ => uri
    | _ => DEFAULT_MOUNT_PATH

/-- `extract_mount_path` from src/crates/core/src/mount.rs. -/
def extract_mount_path (uri : List Char) : List Char :=
  stripTrackSuffix (rawMountPath uri)

/-! ### Mount registry (src/crates/core/src/mount.rs)

A `Mount` owns a packetizer; for registry-level reasoning we model the
observable surface the protocol handler uses (path, payload type, SDP
attribute lines, RTP-Info peek values, subscriber list).  The `HashMap`
of the registry is modelled as a list of mounts with unique `path` keys,
looked up with `find?`. -/
structure MountData where
  path : List Char
  pt : Nat
  sdpAttributes : List (List Char)
  nextSeq : Nat
  nextRtpTimestamp : Nat
  sessionIds : List (List Char)

structure MountRegistry where
  mounts : List MountData
  defaultPath : Option (List Char)

/-- `MountRegistry::get`: exact path lookup. -/
def MountRegistry.get (reg : MountRegistry) (path : List Char) : Option MountData :=
  reg.mounts.find? (fun m => m.path = path)

/-- `MountRegistry::resolve_from_uri`: exact match on the extracted path,
then fall back to the default mount when one is set. -/
def MountRegistry.resolve_from_uri (reg : MountRegistry) (uri : List Char) : Option MountData :=
  (reg.get (extract_mount_path uri)).or (reg.defaultPath.bind (fun p => reg.get p))

/-! ### Server frame push (src/crates/core/src/server.rs)

`Server::send_frame_to` first requires the UDP transport (set by
`start`), then resolves the mount by exact `get` (never the default
fallback), then packetizes and fans out.  The fan-out itself touches
sockets; the model returns the resolved mount on success, which is all
the resolution claims need. -/
/-- `ParseErrorKind` from src/crates/core/src/error.rs. -/
inductive ParseErrorKind where
  | EmptyRequest
  | InvalidRequestLine
  | InvalidHeader
deriving DecidableEq

/-- `RtspError` from src/crates/core/src/error.rs (the `Io` variant wraps a
socket error and is not representable in a pure model). -/
inductive RtspError where
  | SessionNotFound (id : List Char)
  | TransportNotConfigured (id : List Char)
  | SessionNotPlaying (id : List Char)
  | NotStarted
  | AlreadyRunning
  | Parse (kind : ParseErrorKind)
  | PortRangeExhausted
  | MountNotFound (path : List Char)
deriving DecidableEq

structure ServerModel where
  udpStarted : Bool
  mounts : MountRegistry

def Server.send_frame_to (s : ServerModel) (mount_path : List Char) :
    Except RtspError MountData :=
  if s.udpStarted = false then Except.error RtspError.NotStarted
  else
    match s.mounts.get mount_path with
    | none => Except.error (RtspError.MountNotFound mount_path)
    | some mount => Except.ok mount

/-! ### Server port allocator (src/crates/core/src/session/mod.rs) -/
def SERVER_PORT_MIN : Nat := 5000

def SERVER_PORT_MAX : Nat := 65534

/-- `SessionManager::allocate_server_ports`, acting on the value of the
`next_server_port` `AtomicU64` counter.  `fetch_add(2)` returns the old
value and stores `old + 2` (wrapping at 2^64); `rtp as u16` truncates
mod 2^16, and the `+ 1` applied to the cast value is u16 arithmetic.
Returns the `Result` together with the new counter value. -/
def allocate_server_ports (counter : Nat) : Except RtspError (Nat × Nat) × Nat :=
  let rtp := counter
  if SERVER_PORT_MAX < rtp then
    -- store(SERVER_PORT_MIN) followed by fetch_add(2): the retried fetch yields 5000
    let rtp2 := SERVER_PORT_MIN
    (Except.ok (rtp2 % U16_MOD, (rtp2 % U16_MOD + 1) % U16_MOD), SERVER_PORT_MIN + 2)
  else
    (Except.ok (rtp % U16_MOD, (rtp % U16_MOD + 1) % U16_MOD), (counter + 2) % U64_MOD)

/-- Counter value after `n` calls starting from a fresh `SessionManager`
(`next_server_port` initialized to `SERVER_PORT_MIN`). -/
def allocCounterAfter : Nat → Nat
  | 0 => SERVER_PORT_MIN
  | n + 1 => (allocate_server_ports (allocCounterAfter n)).2

/-- Result of the `n`-th call (0-based) starting from a fresh `SessionManager`. -/
def allocResult (n : Nat) : Except RtspError (Nat × Nat) :=
  (allocate_server_ports (allocCounterAfter n)).1

/-! ### RTSP request parsing (src/crates/core/src/protocol/request.rs) -/
/-- Rust `str::lines`: split on the newline character; every piece but
the last was terminated by a newline and loses one trailing carriage
return (a `\r\n` line ending), while the final unterminated piece keeps
any trailing carriage return and is dropped when empty (so a trailing
newline produces no extra empty line, and an empty input has no
lines). -/
def rustLines (s : List Char) : List (List Char) :=
  let pieces := s.splitOn '\n'
  let terminated := pieces.dropLast.map
    (fun l => if l.getLast? = some '\r' then l.dropLast else l)
  let last := pieces.getLastD []
  if last = [] then terminated else terminated ++ [last]

/-- Rust `str::split_whitespace` (restricted to the ASCII whitespace set
of `rustIsWhitespace`): maximal runs of non-whitespace characters. -/
def splitWhitespaceL (l : List Char) : List (List Char) :=
  (l.splitOnP rustIsWhitespace).filter (fun w => w ≠ [])

/-- The header loop of `RtspRequest::parse`: consume lines until the first
blank line; each line must contain a colon, and yields the trimmed name
(as received, case preserved) and trimmed value. -/
def parseHeadersLoop : List (List Char) → Option (List (List Char × List Char))
  | [] => some []
  | line :: rest =>
    if line = [] then some []
    else
      match line.findIdx? (fun c => c = ':') with
      | none => none
      | some colonPos =>
        (parseHeadersLoop rest).map
          (fun hs => (trimL (line.take colonPos), trimL (line.drop (colonPos + 1))) :: hs)

structure RtspRequest where
  method : List Char
  uri : List Char
  version : List Char
  headers : List (List Char × List Char)

/-- `RtspRequest::parse`. -/
def RtspRequest.parse (raw : List Char) : Except RtspError RtspRequest :=
  match rustLines raw with
  | [] => Except.error (RtspError.Parse ParseErrorKind.EmptyRequest)
  | requestLine :: rest =>
    let parts := splitWhitespaceL requestLine
    if parts.length ≠ 3 then Except.error (RtspError.Parse ParseErrorKind.InvalidRequestLine)
    else
      -- a non-RTSP/1.0 version only logs a warning; parsing proceeds
      match parseHeadersLoop rest with
      | none => Except.error (RtspError.Parse ParseErrorKind.InvalidHeader)
      | some headers => Except.ok ⟨parts[0]!, parts[1]!, parts[2]!, headers⟩

/-- `u8::to_ascii_lowercase` on a character. -/
def asciiLower (c : Char) : Char :=
  if 'A' ≤ c ∧ c ≤ 'Z' then Char.ofNat (c.toNat + 32) else c

/-- `str::eq_ignore_ascii_case`. -/
def eqIgnoreAsciiCase (a b : List Char) : Bool :=
  decide (a.map asciiLower = b.map asciiLower)

/-- `RtspRequest::get_header`: first match, ASCII case-insensitive. -/
def RtspRequest.get_header (req : RtspRequest) (name : List Char) : Option (List Char) :=
  (req.headers.find? (fun kv => eqIgnoreAsciiCase kv.1 name)).map (fun kv => kv.2)

/-- `RtspRequest::cseq`. -/
def RtspRequest.cseq (req : RtspRequest) : Option (List Char) :=
  req.get_header (("CSeq").toList)

/-! ### RTP header state (src/crates/core/src/media/rtp.rs)

Bytes are modelled as `Nat` values; the u8/u16/u32/u64 stores of the Rust
struct are made explicit with `% 2^w` at the points where the source
truncates (the `as u32` cast of the timestamp, the `to_be_bytes`
serializations, the wrapping adds). -/
structure RtpHeader where
  pt : Nat        -- u8 payload type
  ssrc : Nat      -- u32
  sequence : Nat  -- u16, wrapping
  timestamp : Nat -- u64 internally; low 32 bits written on the wire
deriving DecidableEq

def RtpHeader.new (pt ssrc : Nat) : RtpHeader := ⟨pt, ssrc, 0, 0⟩

/-- Big-endian bytes of a u16 value. -/
def be16 (n : Nat) : List Nat := [n / 256 % 256, n % 256]

/-- Big-endian bytes of a u32 value. -/
def be32 (n : Nat) : List Nat :=
  [n / 16777216 % 256, n / 65536 % 256, n / 256 % 256, n % 256]

/-- `RtpHeader::write`: serialize the 12-byte fixed header (version 2 in
the top bits of byte 0, marker and payload type in byte 1, big-endian
sequence, the low 32 timestamp bits, SSRC) and advance the sequence
number with u16 wrap-around. -/
def RtpHeader.write (h : RtpHeader) (marker : Bool) : List Nat × RtpHeader :=
  let firstByte : Nat := 128  -- 2 << 6
  let secondByte : Nat := (if marker then 128 else 0) ||| h.pt
  (firstByte :: secondByte ::
      (be16 (h.sequence % U16_MOD) ++ be32 (h.timestamp % U32_MOD) ++ be32 (h.ssrc % U32_MOD)),
   { h with sequence := (h.sequence + 1) % U16_MOD })

/-- `RtpHeader::advance_timestamp` (u64 wrapping add). -/
def RtpHeader.advance_timestamp (h : RtpHeader) (increment : Nat) : RtpHeader :=
  { h with timestamp := (h.timestamp + increment) % U64_MOD }

/-! ### H.264 packetizer (src/crates/core/src/media/h264.rs) -/
def DEFAULT_MTU : Nat := 1400

structure H264Packetizer where
  header : RtpHeader
  mtu : Nat
  sps : Option (List Nat)
  pps : Option (List Nat)

def H264Packetizer.new (pt ssrc : Nat) : H264Packetizer :=
  ⟨RtpHeader.new pt ssrc, DEFAULT_MTU, none, none⟩

/-- The FU-A fragmentation loop of `packetize_nal` (the
`while offset < payload.len()` loop), with the consumed payload suffix as
the loop variable.  The source reaches this loop only with
`maxFragment = mtu - 2` where `mtu` is always `DEFAULT_MTU = 1400` (no
code path modifies the field), so `maxFragment` is nonzero on every
reachable call; the `maxFragment = 0` disjunct of the guard only
totalizes the Lean function (the Rust loop would not terminate there). -/
def fuaLoop (maxFragment fuIndicator nalType : Nat) (isLastNal : Bool)
    (h : RtpHeader) (first : Bool) (remaining : List Nat) :
    List (List Nat) × RtpHeader :=
  if hstop : remaining = [] ∨ maxFragment = 0 then ([], h)
  else
    let lastFragment : Bool := remaining.length ≤ maxFragment
    let chunk := remaining.take maxFragment   -- payload[offset .. offset + min maxFragment rest]
    let startBit : Nat := if first then 128 else 0
    let endBit : Nat := if lastFragment then 64 else 0
    let fuHeader := startBit ||| (endBit ||| nalType)
    let marker := isLastNal && lastFragment
    let w := h.write marker
    let packet := w.1 ++ fuIndicator :: fuHeader :: chunk
    let rest := fuaLoop maxFragment fuIndicator nalType isLastNal w.2 false
      (remaining.drop maxFragment)
    (packet :: rest.1, rest.2)
termination_by remaining.length
decreasing_by
  push_neg at hstop
  have hpos : 0 < remaining.length := List.length_pos.mpr hstop.1
  simp only [List.length_drop]
  omega

/-- `H264Packetizer::packetize_nal`: Single NAL Unit mode when the NAL
fits in the MTU, FU-A fragmentation otherwise. -/
def H264Packetizer.packetize_nal (p : H264Packetizer) (nalUnit : List Nat) (isLastNal : Bool) :
    List (List Nat) × H264Packetizer :=
  if nalUnit = [] then ([], p)
  else if nalUnit.length ≤ p.mtu then
    let w := p.header.write isLastNal
    ([w.1 ++ nalUnit], { p with header := w.2 })
  else
    let nalHeader := nalUnit.head!
    let nalType := nalHeader &&& 31
    let nri := nalHeader &&& 96
    let fuIndicator := nri ||| 28
    let payload := nalUnit.tail
    let maxFragment := p.mtu - 2
    let r := fuaLoop maxFragment fuIndicator nalType isLastNal p.header true payload
    (r.1, { p with header := r.2 })

/-! ### Annex-B NAL extraction -/
/-- The start-code scan of `extract_nal_units`: from index `i`, collect
`(nal_data_start_index, start_code_length)` pairs. -/
def findStartEntries (data : List Nat) (i : Nat) : List (Nat × Nat) :=
  if hlt : i < data.length then
    if i + 3 < data.length ∧ (data.drop i).take 4 = [0, 0, 0, 1] then
      (i + 4, 4) :: findStartEntries data (i + 4)
    else if i + 2 < data.length ∧ (data.drop i).take 3 = [0, 0, 1] then
      (i + 3, 3) :: findStartEntries data (i + 3)
    else
      findStartEntries data (i + 1)
  else []
termination_by data.length - i
decreasing_by
  · omega
  · omega
  · omega

/-- `data[s..e]` on byte lists. -/
def dataSlice (data : List Nat) (s e : Nat) : List Nat := (data.drop s).take (e - s)

/-- The slicing loop of `extract_nal_units`: each NAL runs from its data
start to the next start code's own position (`next_start - next_sc_len`),
or to end-of-input for the last entry; zero-length NALs are skipped. -/
def buildNalUnits (data : List Nat) : List (Nat × Nat) → List (List Nat)
  | [] => []
  | (start, _) :: rest =>
    let e :=
      match rest with
      | (nextStart, nextScLen) :: _ => nextStart - nextScLen
      | [] => data.length
    (if start < e then [dataSlice data start e] else []) ++ buildNalUnits data rest

/-- `H264Packetizer::extract_nal_units`. -/
def H264Packetizer.extract_nal_units (data : List Nat) : List (List Nat) :=
  buildNalUnits data (findStartEntries data 0)

/-! ### Frame packetization -/
/-- One iteration of the SPS/PPS auto-capture loop of `packetize`. -/
def spsCaptureStep (acc : H264Packetizer) (nal : List Nat) : H264Packetizer :=
  if nal = [] then acc
  else
    let nalType := nal.head! &&& 31
    if nalType = 7 ∧ acc.sps = none then { acc with sps := some nal }
    else if nalType = 8 ∧ acc.pps = none then { acc with pps := some nal }
    else acc

/-- The SPS/PPS auto-capture pass of `packetize` (NAL type 7 fills an
unset `sps`, type 8 an unset `pps`; later NALs never overwrite). -/
def spsPpsCapture (p : H264Packetizer) (nalUnits : List (List Nat)) : H264Packetizer :=
  if p.sps = none ∨ p.pps = none then nalUnits.foldl spsCaptureStep p else p

/-- The per-NAL loop of `packetize`: `is_last` is true exactly for the
final NAL of the frame. -/
def packetizeNalsLoop : H264Packetizer → List (List Nat) → List (List Nat) × H264Packetizer
  | p, [] => ([], p)
  | p, [nal] => p.packetize_nal nal true
  | p, nal :: nal2 :: rest =>
    let r1 := p.packetize_nal nal false
    let r2 := packetizeNalsLoop r1.2 (nal2 :: rest)
    (r1.1 ++ r2.1, r2.2)

/-- `Packetizer::packetize` for `H264Packetizer`: extract NALs, auto-capture
SPS/PPS, packetize every NAL, then advance the timestamp once. -/
def H264Packetizer.packetize (p : H264Packetizer) (encodedData : List Nat)
    (timestampIncrement : Nat) : List (List Nat) × H264Packetizer :=
  let nalUnits := H264Packetizer.extract_nal_units encodedData
  let p1 := spsPpsCapture p nalUnits
  let r := packetizeNalsLoop p1 nalUnits
  (r.1, { r.2 with header := r.2.header.advance_timestamp timestampIncrement })

/-- Driver for a sequence of frames pushed through one packetizer: the
emitted packets of all frames, in order. -/
def packetizeFrames : H264Packetizer → List (List Nat × Nat) → List (List Nat) × H264Packetizer
  | p, [] => ([], p)
  | p, (frame, inc) :: rest =>
    let r1 := p.packetize frame inc
    let r2 := packetizeFrames r1.2 rest
    (r1.1 ++ r2.1, r2.2)

/-- Every packet of `ps` is a 12-byte RTP header with some marker bit,
sequence `(s0 + i) % 2^16` for the `i`-th packet, timestamp `ts`, followed
by an arbitrary payload. -/
def packetsShape (pt ssrc ts s0 : Nat) (ps : List (List Nat)) : Prop :=
  ∀ i, (hi : i < ps.length) →
    ∃ (m : Bool) (tail : List Nat),
      ps[i] = (RtpHeader.write ⟨pt, ssrc, (s0 + i) % U16_MOD, ts⟩ m).1 ++ tail

/-- Like `packetsShape` with the timestamp existentially quantified
(it varies across frames of one stream). -/
def packetsShapeT (pt ssrc s0 : Nat) (ps : List (List Nat)) : Prop :=
  ∀ i, (hi : i < ps.length) →
    ∃ (m : Bool) (ts : Nat) (tail : List Nat),
      ps[i] = (RtpHeader.write ⟨pt, ssrc, (s0 + i) % U16_MOD, ts⟩ m).1 ++ tail

/-! ### Spec-side description of NAL extraction (for the refinement claim)

These two functions transcribe the specification's words: scan for 4-byte
and 3-byte start codes; a NAL extends from the byte after its start code
to the byte immediately before the next start code, or to end-of-input;
zero-length NALs are omitted. -/
/-- The bytes of one NAL: everything up to the next start code (or the end
of the input). -/
def takeNal (l : List Nat) : List Nat :=
  if h4 : l.take 4 = [0, 0, 0, 1] then []
  else if h3 : l.take 3 = [0, 0, 1] then []
  else
    match l with
    | [] => []
    | b :: rest => b :: takeNal rest
termination_by l.length
decreasing_by
  simp only [List.length_cons]
  omega

/-- Append one NAL to the front of a NAL list, omitting it when empty. -/
def pushNal (nal : List Nat) (rest : List (List Nat)) : List (List Nat) :=
  if nal = [] then rest else nal :: rest

/-- The NAL units of an Annex-B stream, as the spec describes them: at
each 4-byte (checked first) or 3-byte start code, the NAL after it runs to
the next start code or end-of-input, with empty NALs skipped. -/
def specNalUnits (l : List Nat) : List (List Nat) :=
  if h4 : l.take 4 = [0, 0, 0, 1] then pushNal (takeNal (l.drop 4)) (specNalUnits (l.drop 4))
  else if h3 : l.take 3 = [0, 0, 1] then pushNal (takeNal (l.drop 3)) (specNalUnits (l.drop 3))
  else
    match l with
    | [] => []
    | _ :: rest => specNalUnits rest
termination_by l.length
decreasing_by
  · have hlen := congrArg List.length h4
    simp only [List.length_take, List.length_cons, List.length_nil] at hlen
    simp only [List.length_drop]
    omega
  · have hlen := congrArg List.length h3
    simp only [List.length_take, List.length_cons, List.length_nil] at hlen
    simp only [List.length_drop]
    omega
  · simp only [List.length_cons]
    omega

/-! ### Byte-level facts about serialized packets -/
/-- The 16-bit big-endian sequence number carried in bytes 2..3 of an RTP
packet. -/
def seqNum (pk : List Nat) : Nat := 256 * (pk[2]?.getD 0) + (pk[3]?.getD 0)

/-! ### RTSP responses and the method handler
(src/crates/core/src/protocol/response.rs, handler.rs, sdp.rs,
session/transport.rs, session/mod.rs) -/
/-- `SERVER_AGENT` from src/crates/core/src/protocol/response.rs. -/
def SERVER_AGENT : List Char := ("rtsp-rs/0.1").toList

/-- `RtspResponse` (the builder; `serialize` is not needed here). -/
structure RtspResponse where
  status_code : Nat
  status_text : List Char
  headers : List (List Char × List Char)
  body : Option (List Char)

/-- `RtspResponse::new`: the header list starts with the `Server` header. -/
def RtspResponse.new (status_code : Nat) (status_text : List Char) : RtspResponse :=
  ⟨status_code, status_text, [((("Server").toList), SERVER_AGENT)], none⟩

/-- `RtspResponse::ok`. -/
def RtspResponse.ok : RtspResponse := RtspResponse.new 200 (("OK").toList)

/-- `RtspResponse::not_found`. -/
def RtspResponse.not_found : RtspResponse := RtspResponse.new 404 (("Not Found").toList)

/-- `RtspResponse::bad_request`. -/
def RtspResponse.bad_request : RtspResponse := RtspResponse.new 400 (("Bad Request").toList)

/-- `RtspResponse::add_header`: push onto the header vector. -/
def RtspResponse.add_header (r : RtspResponse) (name value : List Char) : RtspResponse :=
  { r with headers := r.headers ++ [(name, value)] }

/-- `RtspResponse::with_body`. -/
def RtspResponse.with_body (r : RtspResponse) (b : List Char) : RtspResponse :=
  { r with body := some b }

/-- Rust `str::parse::<u16>`: optional leading `+`, at least one ASCII
digit, value at most 65535. -/
def parseU16 (s : List Char) : Option Nat :=
  let digits := match s with
    | '+' :: rest => rest
    | _ => s
  if digits ≠ [] ∧ digits.all Char.isDigit then
    let n := digits.foldl (fun acc c => acc * 10 + (c.toNat - 48)) 0
    if n ≤ 65535 then some n else none
  else none

/-- `TransportHeader` from src/crates/core/src/session/transport.rs. -/
structure TransportHeader where
  client_rtp_port : Nat
  client_rtcp_port : Nat
deriving DecidableEq

/-- The `for part in header.split(';')` loop of `TransportHeader::parse`:
a part that strips to `client_port=` and splits on `-` into exactly two
pieces parses both as u16, a parse failure propagating `none` for the
whole call (the `?` operator); any other part continues the loop. -/
def transportLoop : List (List Char) → Option TransportHeader
  | [] => none
  | part :: rest =>
    match stripPre (("client_port=").toList) (trimL part) with
    | none => transportLoop rest
    | some ports =>
      match ports.splitOn '-' with
      | [rtpStr, rtcpStr] =>
        match parseU16 rtpStr, parseU16 rtcpStr with
        | some rtp, some rtcp => some ⟨rtp, rtcp⟩
        | _, _ => none
      | _ => transportLoop rest

/-- `TransportHeader::parse`. -/
def TransportHeader.parse (header : List Char) : Option TransportHeader :=
  transportLoop (header.splitOn ';')

/-- `SessionState` from src/crates/core/src/session/mod.rs. -/
inductive SessionState where
  | Ready
  | Playing
  | Paused
deriving DecidableEq

/-- `DEFAULT_SESSION_TIMEOUT_SECS`. -/
def DEFAULT_SESSION_TIMEOUT_SECS : Nat := 60

/-- Negotiated `Transport` parameters (session/transport.rs); the socket
address is modelled as host string and port. -/
structure Transport where
  client_rtp_port : Nat
  client_rtcp_port : Nat
  server_rtp_port : Nat
  server_rtcp_port : Nat
  client_addr : List Char × Nat

/-- A `Session` (id, URI, negotiated transport, state, timeout). -/
structure SessionModel where
  id : List Char
  uri : List Char
  transport : Option Transport
  state : SessionState
  timeout_secs : Nat

/-- Uppercase hexadecimal digit, as `{:X}` formatting produces. -/
def hexDigit (n : Nat) : Char :=
  if n < 10 then Char.ofNat (48 + n) else Char.ofNat (55 + n)

/-- Hexadecimal digits of `n` (empty for zero). -/
def toHex (n : Nat) : List Char :=
  if h : n = 0 then []
  else toHex (n / 16) ++ [hexDigit (n % 16)]
termination_by n
decreasing_by exact Nat.div_lt_self (Nat.pos_of_ne_zero h) (by decide)

/-- Rust `format!` with the `{:016X}` spec: uppercase hex, zero-padded
to 16 digits. -/
def format016X (n : Nat) : List Char :=
  let ds := toHex n
  List.replicate (16 - ds.length) '0' ++ ds

/-- Decimal digits of `n` (empty for zero). -/
def toDec (n : Nat) : List Char :=
  if h : n = 0 then []
  else toDec (n / 10) ++ [Char.ofNat (48 + n % 10)]
termination_by n
decreasing_by exact Nat.div_lt_self (Nat.pos_of_ne_zero h) (by decide)

/-- Rust `format!` with the plain `{}` spec on an unsigned integer. -/
def natToDec (n : Nat) : List Char :=
  if n = 0 then ("0").toList else toDec n

/-- `Session::session_header_value`: `"<id>;timeout=<secs>"`. -/
def SessionModel.session_header_value (s : SessionModel) : List Char :=
  s.id ++ (";timeout=").toList ++ natToDec s.timeout_secs

/-- The `SessionManager` state: the id-keyed session map, the server
port counter and the global `SESSION_COUNTER` used for session ids. -/
structure SessionManagerModel where
  sessions : List (List Char × SessionModel)
  nextServerPort : Nat
  sessionCounter : Nat

/-- `HashMap::insert`: the new binding replaces any existing one. -/
def mapInsert (k : List Char) (v : SessionModel)
    (m : List (List Char × SessionModel)) : List (List Char × SessionModel) :=
  (k, v) :: m.filter (fun kv => kv.1 ≠ k)

/-- `SessionManager::get_session`. -/
def SessionManagerModel.get_session (sm : SessionManagerModel) (id : List Char) :
    Option SessionModel :=
  (sm.sessions.find? (fun kv => kv.1 = id)).map (fun kv => kv.2)

/-- `SessionManager::remove_session`: returns the removed session and the
manager without it. -/
def SessionManagerModel.remove_session (sm : SessionManagerModel) (id : List Char) :
    Option (SessionModel × SessionManagerModel) :=
  match sm.sessions.find? (fun kv => kv.1 = id) with
  | none => none
  | some kv =>
    some (kv.2, { sm with sessions := sm.sessions.filter (fun x => x.1 ≠ id) })

/-- `Vec::swap_remove` of the first position holding `sid`: the removed
slot is filled with the last element, which is popped. -/
def swapRemoveId (sid : List Char) (ids : List (List Char)) : List (List Char) :=
  match ids.findIdx? (fun i => i = sid) with
  | none => ids
  | some pos => (ids.set pos (ids.getLastD [])).dropLast

/-- `Mount::subscribe`: push the session id unless already present,
applied to the mount with the given path. -/
def MountRegistry.subscribe (reg : MountRegistry) (path sid : List Char) : MountRegistry :=
  ⟨reg.mounts.map (fun m =>
      if m.path = path ∧ ¬ sid ∈ m.sessionIds then
        { m with sessionIds := m.sessionIds ++ [sid] }
      else m),
   reg.defaultPath⟩

/-- `MountRegistry::unsubscribe_all`: `Mount::unsubscribe` (a
`swap_remove`) on every mount. -/
def MountRegistry.unsubscribe_all (reg : MountRegistry) (sid : List Char) : MountRegistry :=
  ⟨reg.mounts.map (fun m => { m with sessionIds := swapRemoveId sid m.sessionIds }),
   reg.defaultPath⟩

/-- `ServerConfig` from src/crates/core/src/server.rs. -/
structure ServerConfig where
  public_host : Option (List Char)
  public_port : Option Nat
  sdp_username : List Char
  sdp_session_id : List Char
  sdp_session_version : List Char
  sdp_session_name : List Char

/-- `sdp::generate_sdp`: the fixed session-level lines, the media line
with the mount payload type, then the mount SDP attributes, joined and
terminated with CRLF. -/
def generate_sdp (mount : MountData) (ip session_id session_version username
    session_name : List Char) : List Char :=
  let crlf : List Char := [('\r'), '\n']
  let sdp : List (List Char) :=
    [("v=0").toList,
     ("o=").toList ++ username ++ [' '] ++ session_id ++ [' '] ++ session_version
       ++ (" IN IP4 ").toList ++ ip,
     ("s=").toList ++ session_name,
     ("c=IN IP4 ").toList ++ ip,
     ("t=0 0").toList,
     ("a=tool:rtsp-rs").toList,
     ("a=sendonly").toList,
     ("m=video 0 RTP/AVP ").toList ++ natToDec mount.pt]
    ++ mount.sdpAttributes
  List.intercalate crlf sdp ++ crlf

/-- `MethodHandler` state: session manager, mounts, client address (ip
string), config, and the connection-owned session ids. -/
structure MethodHandler where
  session_manager : SessionManagerModel
  mounts : MountRegistry
  client_ip : List Char
  config : ServerConfig
  session_ids : List (List Char)

/-- `MethodHandler::host_from_uri_or_client`: configured public host,
else the host part of the URI, else the client IP. -/
def MethodHandler.host_from_uri_or_client (h : MethodHandler) (uri : List Char) : List Char :=
  match h.config.public_host with
  | some host => host
  | none =>
    match (stripPre (("rtsp://").toList) uri).or (stripPre (("rtsps://").toList) uri) with
    | some after_scheme =>
      let host := trimL ((((after_scheme.splitOn '/').headD []).splitOn ':').headD [])
      if host ≠ [] then host else h.client_ip
    | none => h.client_ip

/-- `MethodHandler::extract_session_id`: the `Session` header up to the
first `;`, trimmed. -/
def MethodHandler.extract_session_id (request : RtspRequest) : Option (List Char) :=
  (request.get_header (("Session").toList)).map
    (fun s => trimL ((s.splitOn ';').headD s))

/-- `MethodHandler::handle_options`. -/
def MethodHandler.handle_options (cseq : List Char) : RtspResponse :=
  (RtspResponse.ok.add_header (("CSeq").toList) cseq).add_header
    (("Public").toList)
    (("OPTIONS, DESCRIBE, SETUP, PLAY, PAUSE, TEARDOWN, GET_PARAMETER").toList)

/-- `MethodHandler::handle_describe`. -/
def MethodHandler.handle_describe (h : MethodHandler) (cseq uri : List Char) : RtspResponse :=
  match h.mounts.resolve_from_uri uri with
  | none => RtspResponse.not_found.add_header (("CSeq").toList) cseq
  | some mount =>
    let host := h.host_from_uri_or_client uri
    let sdp := generate_sdp mount host h.config.sdp_session_id
      h.config.sdp_session_version h.config.sdp_username h.config.sdp_session_name
    (((RtspResponse.ok.add_header (("CSeq").toList) cseq).add_header
        (("Content-Type").toList) (("application/sdp").toList)).add_header
        (("Content-Base").toList) uri).with_body sdp

/-- `MethodHandler::handle_setup`; the session id comes from the global
counter as in `Session::new`, and `create_session`, `set_transport`,
`subscribe` and the `session_ids` push update the handler state. -/
def MethodHandler.handle_setup (h : MethodHandler) (cseq : List Char)
    (request : RtspRequest) : RtspResponse × MethodHandler :=
  match h.mounts.resolve_from_uri request.uri with
  | none => (RtspResponse.not_found.add_header (("CSeq").toList) cseq, h)
  | some mount =>
    match request.get_header (("Transport").toList) with
    | none => (RtspResponse.bad_request.add_header (("CSeq").toList) cseq, h)
    | some transport_header =>
      if containsSub (("RTP/AVP/TCP").toList) transport_header
          || containsSub (("interleaved=").toList) transport_header then
        (((RtspResponse.new 461 (("Unsupported Transport").toList)).add_header
            (("CSeq").toList) cseq).add_header (("Unsupported").toList)
            (("RTP/AVP/TCP (interleaved) not supported; use RTP/AVP (UDP), e.g. ffplay -rtsp_transport udp <url>").toList),
         h)
      else
        match TransportHeader.parse transport_header with
        | none => (RtspResponse.bad_request.add_header (("CSeq").toList) cseq, h)
        | some client_transport =>
          match allocate_server_ports h.session_manager.nextServerPort with
          | (Except.error _, c2) =>
            ((RtspResponse.new 500 (("Internal Server Error").toList)).add_header
                (("CSeq").toList) cseq,
             { h with session_manager := { h.session_manager with nextServerPort := c2 } })
          | (Except.ok (server_rtp_port, server_rtcp_port), c2) =>
            let session_id := format016X h.session_manager.sessionCounter
            let session : SessionModel :=
              ⟨session_id, request.uri,
               some ⟨client_transport.client_rtp_port, client_transport.client_rtcp_port,
                     server_rtp_port, server_rtcp_port,
                     (h.client_ip, client_transport.client_rtp_port)⟩,
               SessionState.Ready, DEFAULT_SESSION_TIMEOUT_SECS⟩
            let sm2 : SessionManagerModel :=
              ⟨mapInsert session_id session h.session_manager.sessions, c2,
               (h.session_manager.sessionCounter + 1) % U64_MOD⟩
            let transport_response :=
              ("RTP/AVP;unicast;client_port=").toList
                ++ natToDec client_transport.client_rtp_port ++ ['-']
                ++ natToDec client_transport.client_rtcp_port
                ++ (";server_port=").toList
                ++ natToDec server_rtp_port ++ ['-'] ++ natToDec server_rtcp_port
            (((RtspResponse.ok.add_header (("CSeq").toList) cseq).add_header
                (("Transport").toList) transport_response).add_header
                (("Session").toList) session.session_header_value,
             { h with session_manager := sm2,
                      mounts := h.mounts.subscribe mount.path session_id,
                      session_ids := h.session_ids ++ [session_id] })

/-- `MethodHandler::handle_play`. -/
def MethodHandler.handle_play (h : MethodHandler) (cseq : List Char)
    (request : RtspRequest) : RtspResponse × MethodHandler :=
  match MethodHandler.extract_session_id request with
  | none =>
    ((RtspResponse.new 454 (("Session Not Found").toList)).add_header
      (("CSeq").toList) cseq, h)
  | some session_id =>
    match h.session_manager.get_session session_id with
    | some session =>
      let session2 := { session with state := SessionState.Playing }
      let sm2 := { h.session_manager with
        sessions := mapInsert session_id session2 h.session_manager.sessions }
      let resp := ((RtspResponse.ok.add_header (("CSeq").toList) cseq).add_header
          (("Session").toList) session2.session_header_value).add_header
          (("Range").toList) (("npt=0.000-").toList)
      let resp := match h.mounts.resolve_from_uri session.uri with
        | some mount =>
          resp.add_header (("RTP-Info").toList)
            (("url=").toList ++ session.uri ++ (";seq=").toList
              ++ natToDec mount.nextSeq ++ (";rtptime=").toList
              ++ natToDec mount.nextRtpTimestamp)
        | none => resp
      (resp, { h with session_manager := sm2 })
    | none =>
      ((RtspResponse.new 454 (("Session Not Found").toList)).add_header
        (("CSeq").toList) cseq, h)

/-- `MethodHandler::handle_pause`. -/
def MethodHandler.handle_pause (h : MethodHandler) (cseq : List Char)
    (request : RtspRequest) : RtspResponse × MethodHandler :=
  match MethodHandler.extract_session_id request with
  | none =>
    ((RtspResponse.new 454 (("Session Not Found").toList)).add_header
      (("CSeq").toList) cseq, h)
  | some session_id =>
    match h.session_manager.get_session session_id with
    | some session =>
      let session2 := { session with state := SessionState.Paused }
      let sm2 := { h.session_manager with
        sessions := mapInsert session_id session2 h.session_manager.sessions }
      ((RtspResponse.ok.add_header (("CSeq").toList) cseq).add_header
          (("Session").toList) session2.session_header_value,
       { h with session_manager := sm2 })
    | none =>
      ((RtspResponse.new 454 (("Session Not Found").toList)).add_header
        (("CSeq").toList) cseq, h)

/-- `MethodHandler::handle_teardown`. -/
def MethodHandler.handle_teardown (h : MethodHandler) (cseq : List Char)
    (request : RtspRequest) : RtspResponse × MethodHandler :=
  match MethodHandler.extract_session_id request with
  | none =>
    ((RtspResponse.new 454 (("Session Not Found").toList)).add_header
      (("CSeq").toList) cseq, h)
  | some session_id =>
    match h.session_manager.remove_session session_id with
    | some (_, sm2) =>
      (RtspResponse.ok.add_header (("CSeq").toList) cseq,
       { h with session_manager := sm2,
                mounts := h.mounts.unsubscribe_all session_id,
                session_ids := h.session_ids.filter (fun i => i ≠ session_id) })
    | none =>
      ((RtspResponse.new 454 (("Session Not Found").toList)).add_header
        (("CSeq").toList) cseq, h)

/-- `MethodHandler::handle_get_parameter` (keepalive). -/
def MethodHandler.handle_get_parameter (h : MethodHandler) (cseq : List Char)
    (request : RtspRequest) : RtspResponse × MethodHandler :=
  let resp := RtspResponse.ok.add_header (("CSeq").toList) cseq
  match MethodHandler.extract_session_id request with
  | some id =>
    if (h.session_manager.get_session id).isSome then
      (resp.add_header (("Session").toList) id, h)
    else (resp, h)
  | none => (resp, h)

/-- `MethodHandler::handle`: dispatch on the method string; unsupported
methods get 501. -/
def MethodHandler.handle (h : MethodHandler) (request : RtspRequest) :
    RtspResponse × MethodHandler :=
  let cseq := (request.cseq).getD (("0").toList)
  if request.method = ("OPTIONS").toList then (MethodHandler.handle_options cseq, h)
  else if request.method = ("DESCRIBE").toList then (h.handle_describe cseq request.uri, h)
  else if request.method = ("SETUP").toList then h.handle_setup cseq request
  else if request.method = ("PLAY").toList then h.handle_play cseq request
  else if request.method = ("PAUSE").toList then h.handle_pause cseq request
  else if request.method = ("TEARDOWN").toList then h.handle_teardown cseq request
  else if request.method = ("GET_PARAMETER").toList then h.handle_get_parameter cseq request
  else ((RtspResponse.new 501 (("Not Implemented").toList)).add_header
    (("CSeq").toList) cseq, h)

/-! ## Theorems -/

/-! Quick sanity examples (mirroring the Rust unit tests). -/
example : extract_mount_path (("rtsp://localhost:8554/stream").toList) = ("/stream").toList := by
  decide

example : extract_mount_path (("rtsp://10.0.0.1:8554/camera1/track1").toList) = ("/camera1").toList := by
  decide

/-! ### Lemmas about path extraction -/
theorem stripPre_append (p l : List Char) : stripPre p (p ++ l) = some l := by
  induction p with
  | nil => rfl
  | cons c cs ih => simp [stripPre, ih]

theorem stripPre_rtsp_of_rtsps (r : List Char) :
    stripPre (("rtsp://").toList) ((("rtsps://").toList) ++ r) = none := by
  simp [stripPre, String.toList]

theorem rawMountPath_slash (u : List Char) (h : u.head? = some '/') :
    rawMountPath u = u := by
  cases u with
  | nil => simp at h
  | cons c rest =>
    simp at h
    subst h
    simp [rawMountPath, stripPre, Option.or]

/-- Claim C4: `extract_mount_path` satisfies the spec's literal test vectors
(`rtsp://h:8554/stream/track1 → /stream`, `rtsp://h/stream → /stream`,
`* → /stream`, `/camera1 → /camera1`, `rtsp://h:8554 → /stream`); and in
general the `rtsp://`/`rtsps://` scheme is stripped with everything from the
first slash taken (defaulting to `/stream` when no slash remains), a raw
input beginning with `/` is used as-is, and everything from the last
occurrence of `/track` onward is removed. -/
theorem C4_extract_mount_path :
    (extract_mount_path (("rtsp://h:8554/stream/track1").toList) = ("/stream").toList
      ∧ extract_mount_path (("rtsp://h/stream").toList) = ("/stream").toList
      ∧ extract_mount_path (("*").toList) = ("/stream").toList
      ∧ extract_mount_path (("/camera1").toList) = ("/camera1").toList
      ∧ extract_mount_path (("rtsp://h:8554").toList) = ("/stream").toList)
    ∧ (∀ u : List Char, extract_mount_path u = stripTrackSuffix (rawMountPath u))
    ∧ (∀ r : List Char,
        rawMountPath ((("rtsp://").toList) ++ r) =
          match r.findIdx? (fun c => c = '/') with
          | some slash => r.drop slash
          | none => DEFAULT_MOUNT_PATH)
    ∧ (∀ r : List Char,
        rawMountPath ((("rtsps://").toList) ++ r) =
          match r.findIdx? (fun c => c = '/') with
          | some slash => r.drop slash
          | none => DEFAULT_MOUNT_PATH)
    ∧ (∀ u : List Char, u.head? = some '/' → rawMountPath u = u)
    ∧ (∀ (path : List Char) (pos : Nat),
        rfindSub (("/track").toList) path = some pos → stripTrackSuffix path = path.take pos) := by
  refine ⟨⟨by decide, by decide, by decide, by decide, by decide⟩, fun u => rfl, ?_, ?_, ?_, ?_⟩
  · intro r
    simp only [rawMountPath, stripPre_append, Option.or]
  · intro r
    simp only [rawMountPath, stripPre_rtsp_of_rtsps, stripPre_append, Option.or]
  · exact rawMountPath_slash
  · intro path pos h
    unfold stripTrackSuffix
    rw [h]

/-- Witness for C4's hypothesis-bearing clauses, at the concrete input
`/camera1` (which begins with a slash). -/
theorem C4_extract_mount_path_witness :
    (("/camera1").toList).head? = some '/' ∧ rawMountPath (("/camera1").toList) = ("/camera1").toList := by
  exact ⟨by decide, C4_extract_mount_path.2.2.2.2.1 (("/camera1").toList) (by decide)⟩

/-- Claim C9: `Server::send_frame_to` resolves its mount argument by exact
path lookup only; for every path that is not a key of the registry it
returns `MountNotFound`, whatever default mount is configured.  The
default-mount fallback exists only in `resolve_from_uri`, which falls back
to the default exactly when the exact lookup misses. -/
theorem C9_send_frame_to_exact_lookup :
    (∀ (s : ServerModel) (path : List Char), s.udpStarted = true →
      (∀ m ∈ s.mounts.mounts, m.path ≠ path) →
      Server.send_frame_to s path = Except.error (RtspError.MountNotFound path))
    ∧ (∀ (reg : MountRegistry) (uri : List Char),
        reg.get (extract_mount_path uri) = none →
        MountRegistry.resolve_from_uri reg uri = reg.defaultPath.bind (fun p => reg.get p)) := by
  constructor
  · intro s path hstarted hkey
    have hget : s.mounts.get path = none := by
      simp only [MountRegistry.get, List.find?_eq_none, decide_eq_true_eq]
      exact hkey
    simp [Server.send_frame_to, hstarted, hget]
  · intro reg uri hmiss
    simp [MountRegistry.resolve_from_uri, hmiss, Option.or]

/-- Witness for C9: a started server holding only `/stream`, with `/stream`
configured as the default mount, still rejects a push to `/other` with
`MountNotFound`. -/
theorem C9_send_frame_to_exact_lookup_witness :
    (let reg : MountRegistry :=
      ⟨[⟨("/stream").toList, 96, [], 0, 0, []⟩], some (("/stream").toList)⟩
     let s : ServerModel := ⟨true, reg⟩
     s.udpStarted = true ∧ (∀ m ∈ s.mounts.mounts, m.path ≠ ("/other").toList)
      ∧ Server.send_frame_to s (("/other").toList)
          = Except.error (RtspError.MountNotFound (("/other").toList))) := by
  refine ⟨rfl, by decide, ?_⟩
  exact C9_send_frame_to_exact_lookup.1 _ _ rfl (by decide)

/-- Claim C10: a URI whose extracted raw path has its last `/track`
occurrence at position 0 (for example `/track1` or `rtsp://host/track1`)
is mapped by `extract_mount_path` to the empty string, so it can never
match a registered mount exactly (registered paths are nonempty) and
`resolve_from_uri` serves it only through the default-mount fallback. -/
theorem C10_track_only_uri (u : List Char)
    (h : rfindSub (("/track").toList) (rawMountPath u) = some 0) :
    extract_mount_path u = []
    ∧ ∀ (reg : MountRegistry), (∀ m ∈ reg.mounts, m.path ≠ ([] : List Char)) →
        MountRegistry.resolve_from_uri reg u = reg.defaultPath.bind (fun p => reg.get p) := by
  have hempty : extract_mount_path u = [] := by
    unfold extract_mount_path stripTrackSuffix
    rw [h]
    rfl
  refine ⟨hempty, fun reg hne => ?_⟩
  have hget : reg.get (extract_mount_path u) = none := by
    rw [hempty]
    simp only [MountRegistry.get, List.find?_eq_none, decide_eq_true_eq]
    exact hne
  simp [MountRegistry.resolve_from_uri, hget, Option.or]

/-- Witness for C10 at the concrete URI `/track1` with a registry holding
`/stream` as its only (and default) mount. -/
theorem C10_track_only_uri_witness :
    (rfindSub (("/track").toList) (rawMountPath (("/track1").toList)) = some 0
      ∧ extract_mount_path (("/track1").toList) = []
      ∧ MountRegistry.resolve_from_uri
          ⟨[⟨("/stream").toList, 96, [], 0, 0, []⟩], some (("/stream").toList)⟩
          (("/track1").toList)
          = (some (("/stream").toList)).bind (fun p =>
              MountRegistry.get ⟨[⟨("/stream").toList, 96, [], 0, 0, []⟩], some (("/stream").toList)⟩ p)) := by
  refine ⟨by decide, ?_, ?_⟩
  · exact (C10_track_only_uri (("/track1").toList) (by decide)).1
  · exact (C10_track_only_uri (("/track1").toList) (by decide)).2 _ (by decide)

theorem allocCounterAfter_formula (n : Nat) (h : 2 * n ≤ 60536) :
    allocCounterAfter n = 5000 + 2 * n := by
  induction n with
  | zero => rfl
  | succ m ih =>
    have hformula := ih (by omega)
    show (allocate_server_ports (allocCounterAfter m)).2 = _
    rw [hformula]
    unfold allocate_server_ports
    have hle : ¬ (SERVER_PORT_MAX < 5000 + 2 * m) := by
      unfold SERVER_PORT_MAX
      omega
    rw [if_neg hle]
    show (5000 + 2 * m + 2) % U64_MOD = 5000 + 2 * (m + 1)
    unfold U64_MOD
    omega

theorem allocCounterAfter_invariant (n : Nat) :
    allocCounterAfter n % 2 = 0 ∧ 5000 ≤ allocCounterAfter n ∧ allocCounterAfter n ≤ 65536 := by
  induction n with
  | zero => exact ⟨rfl, by decide, by decide⟩
  | succ m ih =>
    obtain ⟨heven, hlo, hhi⟩ := ih
    have hstep : allocCounterAfter (m + 1) = (allocate_server_ports (allocCounterAfter m)).2 := rfl
    rw [hstep]
    unfold allocate_server_ports
    by_cases hgt : SERVER_PORT_MAX < allocCounterAfter m
    · rw [if_pos hgt]
      exact ⟨rfl, by decide, by decide⟩
    · rw [if_neg hgt]
      unfold SERVER_PORT_MAX at hgt
      have hmod : (allocCounterAfter m + 2) % U64_MOD = allocCounterAfter m + 2 := by
        unfold U64_MOD
        omega
      show (allocCounterAfter m + 2) % U64_MOD % 2 = 0
        ∧ 5000 ≤ (allocCounterAfter m + 2) % U64_MOD
        ∧ (allocCounterAfter m + 2) % U64_MOD ≤ 65536
      rw [hmod]
      omega

/-- Counterexample to claim C5 as stated: `allocate_server_ports` returns
`Ok` for every counter value and never signals `PortRangeExhausted` (the
variant is declared in `RtspError` but nothing constructs it).  Even at the
wrap point (counter 65536, reached after 30268 successful calls from a
fresh manager) and at the maximal u64 counter value, the call returns
`Ok((5000, 5001))`. -/
theorem C5_allocate_ports_counterexample :
    allocCounterAfter 30268 = 65536
    ∧ allocate_server_ports 65536 = (Except.ok (5000, 5001), 5002)
    ∧ allocate_server_ports (U64_MOD - 2) = (Except.ok (5000, 5001), 5002) := by
  refine ⟨?_, by rfl, by rfl⟩
  have := allocCounterAfter_formula 30268 (by omega)
  omega

/-- Claim C5, amended: starting from a fresh `SessionManager`, successive
calls to `allocate_server_ports` return `(5000,5001), (5002,5003), …` in
order; when the fetched counter value exceeds 65534 the counter is reset
to 5000 and the call is retried once, returning `(5000,5001)`; the call
never returns an error — the retried fetch always yields 5000, so
`PortRangeExhausted` is never signaled; every returned pair has an even
RTP port with the RTCP port equal to RTP port + 1. -/
theorem C5_allocate_ports_amended :
    (∀ n : Nat, 2 * n ≤ 60534 → allocResult n = Except.ok (5000 + 2 * n, 5001 + 2 * n))
    ∧ (∀ c : Nat, SERVER_PORT_MAX < c → allocate_server_ports c = (Except.ok (5000, 5001), 5002))
    ∧ (∀ n : Nat, ∃ rtp, allocResult n = Except.ok (rtp, rtp + 1)
        ∧ rtp % 2 = 0 ∧ SERVER_PORT_MIN ≤ rtp ∧ rtp ≤ SERVER_PORT_MAX) := by
  refine ⟨?_, ?_, ?_⟩
  · intro n h
    unfold allocResult
    rw [allocCounterAfter_formula n (by omega)]
    unfold allocate_server_ports
    have hle : ¬ (SERVER_PORT_MAX < 5000 + 2 * n) := by
      unfold SERVER_PORT_MAX
      omega
    rw [if_neg hle]
    show Except.ok ((5000 + 2 * n) % U16_MOD, ((5000 + 2 * n) % U16_MOD + 1) % U16_MOD) = _
    unfold U16_MOD
    have h1 : (5000 + 2 * n) % 65536 = 5000 + 2 * n := by omega
    rw [h1]
    have h2 : (5000 + 2 * n + 1) % 65536 = 5001 + 2 * n := by omega
    rw [h2]
  · intro c hgt
    unfold allocate_server_ports
    rw [if_pos hgt]
    rfl
  · intro n
    obtain ⟨heven, hlo, hhi⟩ := allocCounterAfter_invariant n
    unfold allocResult allocate_server_ports
    by_cases hgt : SERVER_PORT_MAX < allocCounterAfter n
    · rw [if_pos hgt]
      exact ⟨5000, rfl, by decide, by decide, by decide⟩
    · rw [if_neg hgt]
      unfold SERVER_PORT_MAX at hgt
      refine ⟨allocCounterAfter n, ?_, heven, hlo, by unfold SERVER_PORT_MAX; omega⟩
      have h1 : allocCounterAfter n % U16_MOD = allocCounterAfter n := by
        unfold U16_MOD
        omega
      rw [h1]
      have h2 : (allocCounterAfter n + 1) % U16_MOD = allocCounterAfter n + 1 := by
        unfold U16_MOD
        omega
      rw [h2]

/-- Witness for the amended C5 at concrete inputs: the first two calls and
a wrapped call. -/
theorem C5_allocate_ports_amended_witness :
    (2 * 0 ≤ 60534 ∧ allocResult 0 = Except.ok (5000, 5001))
    ∧ (2 * 1 ≤ 60534 ∧ allocResult 1 = Except.ok (5002, 5003))
    ∧ (SERVER_PORT_MAX < 70000
        ∧ allocate_server_ports 70000 = (Except.ok (5000, 5001), 5002)) := by
  refine ⟨⟨by decide, ?_⟩, ⟨by decide, ?_⟩, ⟨by decide, ?_⟩⟩
  · have := C5_allocate_ports_amended.1 0 (by decide)
    simpa using this
  · have := C5_allocate_ports_amended.1 1 (by decide)
    simpa using this
  · exact C5_allocate_ports_amended.2.1 70000 (by decide)

theorem parseHeadersLoop_eq_none_iff (lines : List (List Char)) :
    parseHeadersLoop lines = none ↔
      ∃ line ∈ lines.takeWhile (fun x => x ≠ []), line.findIdx? (fun c => c = ':') = none := by
  induction lines with
  | nil => simp [parseHeadersLoop]
  | cons line rest ih =>
    by_cases hblank : line = []
    · subst hblank
      simp [parseHeadersLoop]
    · rcases hfind : line.findIdx? (fun c => c = ':') with _ | colonPos
      · simp only [parseHeadersLoop, if_neg hblank, hfind]
        constructor
        · intro _
          refine ⟨line, ?_, hfind⟩
          rw [List.takeWhile_cons_of_pos (by simp [hblank])]
          exact List.mem_cons_self _ _
        · intro _
          trivial
      · simp only [parseHeadersLoop, if_neg hblank, hfind]
        rw [Option.map_eq_none', ih, List.takeWhile_cons_of_pos (by simp [hblank])]
        constructor
        · rintro ⟨l, hl, hnone⟩
          exact ⟨l, List.mem_cons_of_mem _ hl, hnone⟩
        · rintro ⟨l, hl, hnone⟩
          rcases List.mem_cons.mp hl with heq | hmem
          · subst heq
            simp [hfind] at hnone
          · exact ⟨l, hmem, hnone⟩

/-- Claim C8: `RtspRequest::parse` fails with `EmptyRequest` exactly when
the input has no lines; with `InvalidRequestLine` exactly when the first
line does not split into exactly three whitespace-separated tokens; with
`InvalidHeader` exactly when some header line before the first blank line
lacks a colon; and otherwise succeeds, exposing method, URI and version
(even when the version is not `RTSP/1.0`), with header names stored as
received (trimmed, case preserved) and lookup ASCII case-insensitive. -/
theorem C8_rtsp_request_parse :
    (∀ raw : List Char,
      RtspRequest.parse raw = Except.error (RtspError.Parse ParseErrorKind.EmptyRequest)
        ↔ rustLines raw = [])
    ∧ (∀ (raw : List Char) (l : List Char) (rest : List (List Char)),
        rustLines raw = l :: rest →
        (RtspRequest.parse raw = Except.error (RtspError.Parse ParseErrorKind.InvalidRequestLine)
          ↔ (splitWhitespaceL l).length ≠ 3))
    ∧ (∀ (raw : List Char) (l : List Char) (rest : List (List Char)),
        rustLines raw = l :: rest → (splitWhitespaceL l).length = 3 →
        (RtspRequest.parse raw = Except.error (RtspError.Parse ParseErrorKind.InvalidHeader)
          ↔ ∃ line ∈ rest.takeWhile (fun x => x ≠ []), line.findIdx? (fun c => c = ':') = none))
    ∧ (∀ (raw : List Char) (l : List Char) (rest : List (List Char))
        (hdrs : List (List Char × List Char)),
        rustLines raw = l :: rest → (splitWhitespaceL l).length = 3 →
        parseHeadersLoop rest = some hdrs →
        RtspRequest.parse raw = Except.ok
          ⟨(splitWhitespaceL l)[0]!, (splitWhitespaceL l)[1]!, (splitWhitespaceL l)[2]!, hdrs⟩)
    ∧ (∀ (req : RtspRequest) (n1 n2 : List Char), eqIgnoreAsciiCase n1 n2 = true →
        req.get_header n1 = req.get_header n2) := by
  refine ⟨?_, ?_, ?_, ?_, ?_⟩
  · intro raw
    rcases h : rustLines raw with _ | ⟨l, rest⟩
    · simp [RtspRequest.parse, h]
    · simp only [RtspRequest.parse, h]
      constructor
      · intro hcontra
        by_cases h3 : (splitWhitespaceL l).length ≠ 3
        · rw [if_pos h3] at hcontra
          simp at hcontra
        · rw [if_neg h3] at hcontra
          rcases hh : parseHeadersLoop rest with _ | hdrs <;> rw [hh] at hcontra <;> simp at hcontra
      · intro hcontra
        simp at hcontra
  · intro raw l rest h
    simp only [RtspRequest.parse, h]
    by_cases h3 : (splitWhitespaceL l).length ≠ 3
    · rw [if_pos h3]
      simp [h3]
    · rw [if_neg h3]
      rcases hh : parseHeadersLoop rest with _ | hdrs <;> simp [h3]
  · intro raw l rest h h3
    simp only [RtspRequest.parse, h, if_neg (by omega : ¬ (splitWhitespaceL l).length ≠ 3)]
    rw [← parseHeadersLoop_eq_none_iff]
    rcases hh : parseHeadersLoop rest with _ | hdrs <;> simp
  · intro raw l rest hdrs h h3 hh
    simp only [RtspRequest.parse, h, if_neg (by omega : ¬ (splitWhitespaceL l).length ≠ 3), hh]
  · intro req n1 n2 hcase
    have hmaps : n1.map asciiLower = n2.map asciiLower := by
      simpa [eqIgnoreAsciiCase] using hcase
    have hfun : (fun kv : List Char × List Char => eqIgnoreAsciiCase kv.1 n1)
        = (fun kv => eqIgnoreAsciiCase kv.1 n2) := by
      funext kv
      simp [eqIgnoreAsciiCase, hmaps]
    simp [RtspRequest.get_header, hfun]

/-- Witness for C8 at a concrete OPTIONS request (with a lowercase `cseq`
header to exercise the case-insensitive lookup). -/
theorem C8_rtsp_request_parse_witness :
    (rustLines (("OPTIONS rtsp://h/stream RTSP/1.0\r\ncseq: 1\r\n\r\n").toList)
        = [("OPTIONS rtsp://h/stream RTSP/1.0").toList, ("cseq: 1").toList, []]
      ∧ (splitWhitespaceL (("OPTIONS rtsp://h/stream RTSP/1.0").toList)).length = 3
      ∧ parseHeadersLoop [("cseq: 1").toList, []]
          = some [(("cseq").toList, ("1").toList)]
      ∧ RtspRequest.parse (("OPTIONS rtsp://h/stream RTSP/1.0\r\ncseq: 1\r\n\r\n").toList)
          = Except.ok ⟨("OPTIONS").toList, ("rtsp://h/stream").toList, ("RTSP/1.0").toList,
              [(("cseq").toList, ("1").toList)]⟩)
    ∧ (eqIgnoreAsciiCase (("CSeq").toList) (("cseq").toList) = true
      ∧ RtspRequest.get_header
          ⟨("OPTIONS").toList, ("rtsp://h/stream").toList, ("RTSP/1.0").toList,
            [(("cseq").toList, ("1").toList)]⟩ (("CSeq").toList)
        = RtspRequest.get_header
          ⟨("OPTIONS").toList, ("rtsp://h/stream").toList, ("RTSP/1.0").toList,
            [(("cseq").toList, ("1").toList)]⟩ (("cseq").toList)) := by
  refine ⟨⟨by decide, by decide, by decide, ?_⟩, by decide, ?_⟩
  · have := C8_rtsp_request_parse.2.2.2.1
      (("OPTIONS rtsp://h/stream RTSP/1.0\r\ncseq: 1\r\n\r\n").toList)
      (("OPTIONS rtsp://h/stream RTSP/1.0").toList) [("cseq: 1").toList, []]
      [(("cseq").toList, ("1").toList)] (by decide) (by decide) (by decide)
    simpa using this
  · exact C8_rtsp_request_parse.2.2.2.2 _ _ _ (by decide)

/-! Sanity examples mirroring the Rust unit tests. -/
example : H264Packetizer.extract_nal_units [0, 0, 0, 1, 0x65, 0xAA, 0xBB] = [[0x65, 0xAA, 0xBB]] := by
  simp [H264Packetizer.extract_nal_units, findStartEntries, buildNalUnits, dataSlice]

example : H264Packetizer.extract_nal_units [0, 0, 1, 0x67, 0x42, 0x00] = [[0x67, 0x42, 0x00]] := by
  simp [H264Packetizer.extract_nal_units, findStartEntries, buildNalUnits, dataSlice]

example :
    H264Packetizer.extract_nal_units [0, 0, 0, 1, 0x67, 0x42, 0, 0, 1, 0x68, 0xCE]
      = [[0x67, 0x42], [0x68, 0xCE]] := by
  simp [H264Packetizer.extract_nal_units, findStartEntries, buildNalUnits, dataSlice]

example : H264Packetizer.extract_nal_units [] = [] := by
  simp [H264Packetizer.extract_nal_units, findStartEntries, buildNalUnits]

example : H264Packetizer.extract_nal_units [0xFF, 0xFE] = [] := by
  simp [H264Packetizer.extract_nal_units, findStartEntries, buildNalUnits]

example :
    ((H264Packetizer.new 96 0xAABBCCDD).packetize_nal [0x65, 0xAA, 0xBB, 0xCC] true).1
      = [[128, 128 + 96, 0, 0, 0, 0, 0, 0, 0xAA, 0xBB, 0xCC, 0xDD, 0x65, 0xAA, 0xBB, 0xCC]] := by
  decide

/-! ### Packet-shape lemmas for the RTP header invariants -/
theorem lor_128_of_lt (p : Nat) (hp : p < 128) : 128 ||| p = 128 + p := by
  have hall : ∀ q : Fin 128, 128 ||| (q : Nat) = 128 + (q : Nat) := by decide
  exact hall ⟨p, hp⟩

/-- The serialized header bytes depend on the sequence field only through
its value mod 2^16. -/
theorem write_bytes_congr (pt ssrc t : Nat) (m : Bool) (a b : Nat)
    (hab : a % U16_MOD = b % U16_MOD) :
    (RtpHeader.write ⟨pt, ssrc, a, t⟩ m).1 = (RtpHeader.write ⟨pt, ssrc, b, t⟩ m).1 := by
  simp [RtpHeader.write, hab]

theorem packetsShape_nil (pt ssrc ts s0 : Nat) : packetsShape pt ssrc ts s0 [] := by
  intro i hi
  simp at hi

theorem packetsShape_congr (pt ssrc ts : Nat) (a b : Nat) (ps : List (List Nat))
    (hab : a % U16_MOD = b % U16_MOD) (h : packetsShape pt ssrc ts a ps) :
    packetsShape pt ssrc ts b ps := by
  intro i hi
  obtain ⟨m, tail, heq⟩ := h i hi
  refine ⟨m, tail, ?_⟩
  rw [heq]
  have harg : (a + i) % U16_MOD = (b + i) % U16_MOD := by
    unfold U16_MOD at hab ⊢
    omega
  rw [harg]

theorem packetsShape_append (pt ssrc ts s0 : Nat) (ps1 ps2 : List (List Nat))
    (h1 : packetsShape pt ssrc ts s0 ps1)
    (h2 : packetsShape pt ssrc ts (s0 + ps1.length) ps2) :
    packetsShape pt ssrc ts s0 (ps1 ++ ps2) := by
  intro i hi
  rw [List.length_append] at hi
  by_cases hlt : i < ps1.length
  · obtain ⟨m, tail, heq⟩ := h1 i hlt
    exact ⟨m, tail, by rw [List.getElem_append_left hlt]; exact heq⟩
  · push_neg at hlt
    obtain ⟨m, tail, heq⟩ := h2 (i - ps1.length) (by omega)
    refine ⟨m, tail, ?_⟩
    rw [List.getElem_append_right hlt]
    rw [heq]
    have harg : s0 + ps1.length + (i - ps1.length) = s0 + i := by omega
    rw [harg]

theorem fuaLoop_shape (mf fi nt : Nat) (il : Bool) (h : RtpHeader) (first : Bool)
    (remaining : List Nat) :
    h.sequence < U16_MOD →
    (fuaLoop mf fi nt il h first remaining).2
        = ⟨h.pt, h.ssrc,
            (h.sequence + (fuaLoop mf fi nt il h first remaining).1.length) % U16_MOD,
            h.timestamp⟩
      ∧ packetsShape h.pt h.ssrc h.timestamp h.sequence (fuaLoop mf fi nt il h first remaining).1 := by
  induction h, first, remaining using fuaLoop.induct mf fi nt il with
  | case1 h first remaining hstop =>
    intro hseq
    rw [fuaLoop, dif_pos hstop]
    dsimp only
    refine ⟨?_, packetsShape_nil _ _ _ _⟩
    have hmod : (h.sequence + ([] : List (List Nat)).length) % U16_MOD = h.sequence := by
      simp only [List.length_nil, Nat.add_zero]
      exact Nat.mod_eq_of_lt hseq
    rw [hmod]
  | case2 h first remaining hstop lastFragment marker w ih =>
    intro hseq
    have hw2seq : w.2.sequence = (h.sequence + 1) % U16_MOD := rfl
    have hseq1 : w.2.sequence < U16_MOD := by
      rw [hw2seq]
      unfold U16_MOD
      omega
    obtain ⟨ihstate, ihshape⟩ := ih hseq1
    have hunfold : fuaLoop mf fi nt il h first remaining
        = ((w.1 ++ fi :: ((if first then 128 else 0)
              ||| ((if lastFragment then 64 else 0) ||| nt)) :: remaining.take mf)
            :: (fuaLoop mf fi nt il w.2 false (remaining.drop mf)).1,
           (fuaLoop mf fi nt il w.2 false (remaining.drop mf)).2) := by
      rw [fuaLoop, dif_neg hstop]
    rw [hunfold]
    dsimp only
    constructor
    · rw [ihstate]
      have hw2pt : w.2.pt = h.pt := rfl
      have hw2ssrc : w.2.ssrc = h.ssrc := rfl
      have hw2ts : w.2.timestamp = h.timestamp := rfl
      rw [hw2pt, hw2ssrc, hw2ts, hw2seq, List.length_cons]
      have harith : ((h.sequence + 1) % U16_MOD
            + (fuaLoop mf fi nt il w.2 false (remaining.drop mf)).1.length) % U16_MOD
          = (h.sequence
            + ((fuaLoop mf fi nt il w.2 false (remaining.drop mf)).1.length + 1)) % U16_MOD := by
        unfold U16_MOD
        omega
      rw [harith]
    · intro i hi
      cases i with
      | zero =>
        refine ⟨marker, fi :: ((if first then 128 else 0)
            ||| ((if lastFragment then 64 else 0) ||| nt)) :: remaining.take mf, ?_⟩
        simp only [List.getElem_cons_zero]
        have hbytes : w.1
            = (RtpHeader.write ⟨h.pt, h.ssrc, (h.sequence + 0) % U16_MOD, h.timestamp⟩ marker).1 := by
          show (h.write marker).1 = _
          have narg : (h.sequence + 0) % U16_MOD % U16_MOD = h.sequence % U16_MOD := by
            unfold U16_MOD
            omega
          simp [RtpHeader.write, narg]
        rw [hbytes]
      | succ i =>
        simp only [List.getElem_cons_succ]
        have hlen2 : i < (fuaLoop mf fi nt il w.2 false (remaining.drop mf)).1.length := by
          simp only [List.length_cons] at hi
          omega
        obtain ⟨m, tail, heq⟩ := ihshape i hlen2
        have hpt : w.2.pt = h.pt := rfl
        have hssrc : w.2.ssrc = h.ssrc := rfl
        have hts : w.2.timestamp = h.timestamp := rfl
        rw [hpt, hssrc, hts, hw2seq] at heq
        refine ⟨m, tail, ?_⟩
        rw [heq]
        have harg : ((h.sequence + 1) % U16_MOD + i) % U16_MOD = (h.sequence + (i + 1)) % U16_MOD := by
          unfold U16_MOD
          omega
        rw [harg]

theorem write_bytes_shift (h : RtpHeader) (m : Bool) :
    (h.write m).1 = (RtpHeader.write ⟨h.pt, h.ssrc, (h.sequence + 0) % U16_MOD, h.timestamp⟩ m).1 := by
  have narg : (h.sequence + 0) % U16_MOD % U16_MOD = h.sequence % U16_MOD := by
    unfold U16_MOD
    omega
  simp [RtpHeader.write, narg]

theorem packetize_nal_shape (p : H264Packetizer) (nal : List Nat) (il : Bool)
    (hseq : p.header.sequence < U16_MOD) :
    (p.packetize_nal nal il).2
        = ⟨⟨p.header.pt, p.header.ssrc,
            (p.header.sequence + (p.packetize_nal nal il).1.length) % U16_MOD,
            p.header.timestamp⟩, p.mtu, p.sps, p.pps⟩
      ∧ packetsShape p.header.pt p.header.ssrc p.header.timestamp p.header.sequence
          (p.packetize_nal nal il).1 := by
  unfold H264Packetizer.packetize_nal
  by_cases hemp : nal = []
  · rw [if_pos hemp]
    dsimp only
    have hmod : (p.header.sequence + ([] : List (List Nat)).length) % U16_MOD
        = p.header.sequence := by
      simp only [List.length_nil, Nat.add_zero]
      exact Nat.mod_eq_of_lt hseq
    refine ⟨?_, packetsShape_nil _ _ _ _⟩
    rw [hmod]
  · rw [if_neg hemp]
    by_cases hfit : nal.length ≤ p.mtu
    · rw [if_pos hfit]
      dsimp only
      constructor
      · rfl
      · intro i hi
        simp only [List.length_cons, List.length_nil] at hi
        have hz : i = 0 := by omega
        subst hz
        refine ⟨il, nal, ?_⟩
        simp only [List.getElem_cons_zero]
        rw [← write_bytes_shift]
    · rw [if_neg hfit]
      dsimp only
      obtain ⟨hstate, hshape⟩ :=
        fuaLoop_shape (p.mtu - 2) ((nal.head! &&& 96) ||| 28) (nal.head! &&& 31) il
          p.header true nal.tail hseq
      constructor
      · rw [hstate]
      · exact hshape

theorem packetizeNalsLoop_shape (nals : List (List Nat)) (p : H264Packetizer)
    (hseq : p.header.sequence < U16_MOD) :
    (packetizeNalsLoop p nals).2
        = ⟨⟨p.header.pt, p.header.ssrc,
            (p.header.sequence + (packetizeNalsLoop p nals).1.length) % U16_MOD,
            p.header.timestamp⟩, p.mtu, p.sps, p.pps⟩
      ∧ packetsShape p.header.pt p.header.ssrc p.header.timestamp p.header.sequence
          (packetizeNalsLoop p nals).1 := by
  induction nals generalizing p with
  | nil =>
    refine ⟨?_, packetsShape_nil _ _ _ _⟩
    have hlen : (packetizeNalsLoop p ([] : List (List Nat))).1.length = 0 := rfl
    rw [hlen, Nat.add_zero, Nat.mod_eq_of_lt hseq]
    rfl
  | cons nal rest ih =>
    cases rest with
    | nil => exact packetize_nal_shape p nal true hseq
    | cons nal2 rest2 =>
      obtain ⟨hstate1, hshape1⟩ := packetize_nal_shape p nal false hseq
      have hXpt : (p.packetize_nal nal false).2.header.pt = p.header.pt := by rw [hstate1]
      have hXssrc : (p.packetize_nal nal false).2.header.ssrc = p.header.ssrc := by rw [hstate1]
      have hXts : (p.packetize_nal nal false).2.header.timestamp = p.header.timestamp := by
        rw [hstate1]
      have hXseq : (p.packetize_nal nal false).2.header.sequence
          = (p.header.sequence + (p.packetize_nal nal false).1.length) % U16_MOD := by
        rw [hstate1]
      have hXmtu : (p.packetize_nal nal false).2.mtu = p.mtu := by rw [hstate1]
      have hXsps : (p.packetize_nal nal false).2.sps = p.sps := by rw [hstate1]
      have hXpps : (p.packetize_nal nal false).2.pps = p.pps := by rw [hstate1]
      have hseq1 : (p.packetize_nal nal false).2.header.sequence < U16_MOD := by
        rw [hXseq]
        unfold U16_MOD
        omega
      obtain ⟨hstate2, hshape2⟩ := ih (p.packetize_nal nal false).2 hseq1
      have hrun : packetizeNalsLoop p (nal :: nal2 :: rest2)
          = ((p.packetize_nal nal false).1
              ++ (packetizeNalsLoop (p.packetize_nal nal false).2 (nal2 :: rest2)).1,
            (packetizeNalsLoop (p.packetize_nal nal false).2 (nal2 :: rest2)).2) := rfl
      rw [hrun]
      constructor
      · show (packetizeNalsLoop (p.packetize_nal nal false).2 (nal2 :: rest2)).2 = _
        rw [hstate2, hXpt, hXssrc, hXts, hXseq, hXmtu, hXsps, hXpps, List.length_append]
        have harith : ((p.header.sequence + (p.packetize_nal nal false).1.length) % U16_MOD
              + (packetizeNalsLoop (p.packetize_nal nal false).2 (nal2 :: rest2)).1.length) % U16_MOD
            = (p.header.sequence
              + ((p.packetize_nal nal false).1.length
                + (packetizeNalsLoop (p.packetize_nal nal false).2 (nal2 :: rest2)).1.length))
                % U16_MOD := by
          unfold U16_MOD
          omega
        rw [harith]
      · rw [hXpt, hXssrc, hXts, hXseq] at hshape2
        apply packetsShape_append _ _ _ _ _ _ hshape1
        apply packetsShape_congr _ _ _
          ((p.header.sequence + (p.packetize_nal nal false).1.length) % U16_MOD) _ _ _ hshape2
        unfold U16_MOD
        omega

theorem spsCaptureStep_header (acc : H264Packetizer) (nal : List Nat) :
    (spsCaptureStep acc nal).header = acc.header ∧ (spsCaptureStep acc nal).mtu = acc.mtu := by
  simp only [spsCaptureStep]
  split
  · exact ⟨rfl, rfl⟩
  · split
    · exact ⟨rfl, rfl⟩
    · split
      · exact ⟨rfl, rfl⟩
      · exact ⟨rfl, rfl⟩

theorem foldl_spsCaptureStep_header (ns : List (List Nat)) (p : H264Packetizer) :
    (ns.foldl spsCaptureStep p).header = p.header ∧ (ns.foldl spsCaptureStep p).mtu = p.mtu := by
  induction ns generalizing p with
  | nil => exact ⟨rfl, rfl⟩
  | cons n rest ih =>
    simp only [List.foldl_cons]
    obtain ⟨h1, h2⟩ := ih (spsCaptureStep p n)
    obtain ⟨g1, g2⟩ := spsCaptureStep_header p n
    exact ⟨h1.trans g1, h2.trans g2⟩

theorem spsPpsCapture_header (p : H264Packetizer) (ns : List (List Nat)) :
    (spsPpsCapture p ns).header = p.header ∧ (spsPpsCapture p ns).mtu = p.mtu := by
  unfold spsPpsCapture
  split
  · exact foldl_spsCaptureStep_header ns p
  · exact ⟨rfl, rfl⟩

theorem packetize_shape (p : H264Packetizer) (data : List Nat) (inc : Nat)
    (hseq : p.header.sequence < U16_MOD) :
    (p.packetize data inc).2.header.pt = p.header.pt
    ∧ (p.packetize data inc).2.header.ssrc = p.header.ssrc
    ∧ (p.packetize data inc).2.header.timestamp = (p.header.timestamp + inc) % U64_MOD
    ∧ (p.packetize data inc).2.header.sequence
        = (p.header.sequence + (p.packetize data inc).1.length) % U16_MOD
    ∧ (p.packetize data inc).1
        = (packetizeNalsLoop (spsPpsCapture p (H264Packetizer.extract_nal_units data))
            (H264Packetizer.extract_nal_units data)).1
    ∧ packetsShape p.header.pt p.header.ssrc p.header.timestamp p.header.sequence
        (p.packetize data inc).1 := by
  obtain ⟨hch, hcm⟩ := spsPpsCapture_header p (H264Packetizer.extract_nal_units data)
  have hcseq : (spsPpsCapture p (H264Packetizer.extract_nal_units data)).header.sequence
      < U16_MOD := by
    rw [hch]
    exact hseq
  obtain ⟨hstate, hshape⟩ :=
    packetizeNalsLoop_shape (H264Packetizer.extract_nal_units data)
      (spsPpsCapture p (H264Packetizer.extract_nal_units data)) hcseq
  rw [hch] at hstate hshape
  have hpackets : (p.packetize data inc).1
      = (packetizeNalsLoop (spsPpsCapture p (H264Packetizer.extract_nal_units data))
          (H264Packetizer.extract_nal_units data)).1 := rfl
  have hfinal : (p.packetize data inc).2.header
      = ((packetizeNalsLoop (spsPpsCapture p (H264Packetizer.extract_nal_units data))
          (H264Packetizer.extract_nal_units data)).2.header).advance_timestamp inc := rfl
  refine ⟨?_, ?_, ?_, ?_, hpackets, ?_⟩
  · rw [hfinal, hstate]
    rfl
  · rw [hfinal, hstate]
    rfl
  · rw [hfinal, hstate]
    rfl
  · rw [hfinal, hstate]
    show (p.header.sequence + _) % U16_MOD = _
    rw [hpackets]
  · rw [hpackets]
    exact hshape

theorem packetsShapeT_nil (pt ssrc s0 : Nat) : packetsShapeT pt ssrc s0 [] := by
  intro i hi
  simp at hi

theorem packetsShape_weaken (pt ssrc ts s0 : Nat) (ps : List (List Nat))
    (h : packetsShape pt ssrc ts s0 ps) : packetsShapeT pt ssrc s0 ps := by
  intro i hi
  obtain ⟨m, tail, heq⟩ := h i hi
  exact ⟨m, ts, tail, heq⟩

theorem packetsShapeT_congr (pt ssrc : Nat) (a b : Nat) (ps : List (List Nat))
    (hab : a % U16_MOD = b % U16_MOD) (h : packetsShapeT pt ssrc a ps) :
    packetsShapeT pt ssrc b ps := by
  intro i hi
  obtain ⟨m, ts, tail, heq⟩ := h i hi
  refine ⟨m, ts, tail, ?_⟩
  rw [heq]
  have harg : (a + i) % U16_MOD = (b + i) % U16_MOD := by
    unfold U16_MOD at hab ⊢
    omega
  rw [harg]

theorem packetsShapeT_append (pt ssrc s0 : Nat) (ps1 ps2 : List (List Nat))
    (h1 : packetsShapeT pt ssrc s0 ps1)
    (h2 : packetsShapeT pt ssrc (s0 + ps1.length) ps2) :
    packetsShapeT pt ssrc s0 (ps1 ++ ps2) := by
  intro i hi
  rw [List.length_append] at hi
  by_cases hlt : i < ps1.length
  · obtain ⟨m, ts, tail, heq⟩ := h1 i hlt
    exact ⟨m, ts, tail, by rw [List.getElem_append_left hlt]; exact heq⟩
  · push_neg at hlt
    obtain ⟨m, ts, tail, heq⟩ := h2 (i - ps1.length) (by omega)
    refine ⟨m, ts, tail, ?_⟩
    rw [List.getElem_append_right hlt]
    rw [heq]
    have harg : s0 + ps1.length + (i - ps1.length) = s0 + i := by omega
    rw [harg]

theorem packetizeFrames_shape (frames : List (List Nat × Nat)) (p : H264Packetizer)
    (hseq : p.header.sequence < U16_MOD) :
    (packetizeFrames p frames).2.header.pt = p.header.pt
    ∧ (packetizeFrames p frames).2.header.ssrc = p.header.ssrc
    ∧ (packetizeFrames p frames).2.header.sequence
        = (p.header.sequence + (packetizeFrames p frames).1.length) % U16_MOD
    ∧ packetsShapeT p.header.pt p.header.ssrc p.header.sequence (packetizeFrames p frames).1 := by
  induction frames generalizing p with
  | nil =>
    refine ⟨rfl, rfl, ?_, packetsShapeT_nil _ _ _⟩
    have hlen : (packetizeFrames p ([] : List (List Nat × Nat))).1.length = 0 := rfl
    rw [hlen, Nat.add_zero, Nat.mod_eq_of_lt hseq]
    rfl
  | cons fr rest ih =>
    obtain ⟨frame, inc⟩ := fr
    obtain ⟨hpt1, hssrc1, hts1, hseqv1, _, hshape1⟩ := packetize_shape p frame inc hseq
    have hseq1 : (p.packetize frame inc).2.header.sequence < U16_MOD := by
      rw [hseqv1]
      show (p.header.sequence + (p.packetize frame inc).1.length) % U16_MOD < U16_MOD
      unfold U16_MOD
      omega
    obtain ⟨hpt2, hssrc2, hseqv2, hshape2⟩ := ih (p.packetize frame inc).2 hseq1
    have hrun : packetizeFrames p ((frame, inc) :: rest)
        = ((p.packetize frame inc).1 ++ (packetizeFrames (p.packetize frame inc).2 rest).1,
          (packetizeFrames (p.packetize frame inc).2 rest).2) := rfl
    rw [hrun]
    refine ⟨?_, ?_, ?_, ?_⟩
    · show (packetizeFrames (p.packetize frame inc).2 rest).2.header.pt = _
      rw [hpt2, hpt1]
    · show (packetizeFrames (p.packetize frame inc).2 rest).2.header.ssrc = _
      rw [hssrc2, hssrc1]
    · show (packetizeFrames (p.packetize frame inc).2 rest).2.header.sequence = _
      rw [hseqv2, hseqv1, List.length_append]
      unfold U16_MOD
      omega
    · show packetsShapeT p.header.pt p.header.ssrc p.header.sequence
        ((p.packetize frame inc).1 ++ (packetizeFrames (p.packetize frame inc).2 rest).1)
      rw [hpt1, hssrc1, hseqv1] at hshape2
      apply packetsShapeT_append _ _ _ _ _ (packetsShape_weaken _ _ _ _ _ hshape1)
      apply packetsShapeT_congr _ _
        ((p.header.sequence + (p.packetize frame inc).1.length) % U16_MOD) _ _ _ hshape2
      unfold U16_MOD
      omega

/-! ### Equivalence of the index-based extraction with the spec description -/
theorem take4_len {l : List Nat} (h : l.take 4 = [0, 0, 0, 1]) : 4 ≤ l.length := by
  have hlen := congrArg List.length h
  simp only [List.length_take, List.length_cons, List.length_nil] at hlen
  omega

theorem take3_len {l : List Nat} (h : l.take 3 = [0, 0, 1]) : 3 ≤ l.length := by
  have hlen := congrArg List.length h
  simp only [List.length_take, List.length_cons, List.length_nil] at hlen
  omega

theorem takeNal_nil : takeNal [] = [] := by
  rw [takeNal]
  simp

theorem takeNal_sc4 (l : List Nat) (h : l.take 4 = [0, 0, 0, 1]) : takeNal l = [] := by
  rw [takeNal, dif_pos h]

theorem takeNal_sc3 (l : List Nat) (h4 : ¬ l.take 4 = [0, 0, 0, 1]) (h3 : l.take 3 = [0, 0, 1]) :
    takeNal l = [] := by
  rw [takeNal, dif_neg h4, dif_pos h3]

theorem takeNal_cons (b : Nat) (rest : List Nat)
    (h4 : ¬ (b :: rest).take 4 = [0, 0, 0, 1]) (h3 : ¬ (b :: rest).take 3 = [0, 0, 1]) :
    takeNal (b :: rest) = b :: takeNal rest := by
  rw [takeNal, dif_neg h4, dif_neg h3]

theorem specNalUnits_nil : specNalUnits [] = [] := by
  rw [specNalUnits]
  simp

theorem specNalUnits_sc4 (l : List Nat) (h : l.take 4 = [0, 0, 0, 1]) :
    specNalUnits l = pushNal (takeNal (l.drop 4)) (specNalUnits (l.drop 4)) := by
  rw [specNalUnits, dif_pos h]

theorem specNalUnits_sc3 (l : List Nat) (h4 : ¬ l.take 4 = [0, 0, 0, 1])
    (h3 : l.take 3 = [0, 0, 1]) :
    specNalUnits l = pushNal (takeNal (l.drop 3)) (specNalUnits (l.drop 3)) := by
  rw [specNalUnits, dif_neg h4, dif_pos h3]

theorem specNalUnits_cons (b : Nat) (rest : List Nat)
    (h4 : ¬ (b :: rest).take 4 = [0, 0, 0, 1]) (h3 : ¬ (b :: rest).take 3 = [0, 0, 1]) :
    specNalUnits (b :: rest) = specNalUnits rest := by
  rw [specNalUnits, dif_neg h4, dif_neg h3]

theorem dataSlice_cons (data : List Nat) (j e : Nat) (hj : j < data.length) (hje : j + 1 ≤ e) :
    dataSlice data j e = data[j] :: dataSlice data (j + 1) e := by
  unfold dataSlice
  rw [List.drop_eq_getElem_cons hj]
  have hsub : e - j = (e - (j + 1)) + 1 := by omega
  rw [hsub, List.take_succ_cons]

theorem dataSlice_ne_nil (data : List Nat) (j e : Nat) (hj : j < e) (hlen : j < data.length) :
    dataSlice data j e ≠ [] := by
  have hslen : (dataSlice data j e).length = min (e - j) (data.length - j) := by
    unfold dataSlice
    simp [List.length_take, List.length_drop]
  intro hcontra
  rw [hcontra] at hslen
  simp only [List.length_nil] at hslen
  omega

theorem dataSlice_to_end (data : List Nat) (j : Nat) :
    dataSlice data j data.length = data.drop j := by
  unfold dataSlice
  have hlen : data.length - j = (data.drop j).length := by simp [List.length_drop]
  rw [hlen, List.take_length]

theorem dataSlice_self (data : List Nat) (j : Nat) : dataSlice data j j = [] := by
  unfold dataSlice
  simp

/-- `takeNal` on the suffix starting at `j` reaches exactly the position of
the next start code found by the index scan (or the end of the input). -/
theorem takeNal_drop (data : List Nat) (j : Nat) :
    (findStartEntries data j = [] → takeNal (data.drop j) = data.drop j)
    ∧ (∀ s2 l2 rest, findStartEntries data j = (s2, l2) :: rest →
        takeNal (data.drop j) = dataSlice data j (s2 - l2)
          ∧ j ≤ s2 - l2 ∧ s2 - l2 < data.length) := by
  induction j using findStartEntries.induct data with
  | case1 j hlt hc4 ih =>
    have hent : findStartEntries data j = (j + 4, 4) :: findStartEntries data (j + 4) := by
      rw [findStartEntries, dif_pos hlt, if_pos hc4]
    constructor
    · intro hcontra
      rw [hent] at hcontra
      cases hcontra
    · intro s2 l2 rest hcons
      rw [hent] at hcons
      injection hcons with h1 h2
      injection h1 with hs hl
      subst hs
      subst hl
      have hzero : j + 4 - 4 = j := by omega
      rw [hzero, dataSlice_self]
      exact ⟨takeNal_sc4 _ hc4.2, by omega, hlt⟩
  | case2 j hlt hc4 hc3 ih =>
    have hent : findStartEntries data j = (j + 3, 3) :: findStartEntries data (j + 3) := by
      rw [findStartEntries, dif_pos hlt, if_neg hc4, if_pos hc3]
    have hn4 : ¬ (data.drop j).take 4 = [0, 0, 0, 1] := by
      intro hx
      exact hc4 ⟨by have := take4_len hx; simp [List.length_drop] at this; omega, hx⟩
    constructor
    · intro hcontra
      rw [hent] at hcontra
      cases hcontra
    · intro s2 l2 rest hcons
      rw [hent] at hcons
      injection hcons with h1 h2
      injection h1 with hs hl
      subst hs
      subst hl
      have hzero : j + 3 - 3 = j := by omega
      rw [hzero, dataSlice_self]
      exact ⟨takeNal_sc3 _ hn4 hc3.2, by omega, hlt⟩
  | case3 j hlt hc4 hc3 ih =>
    have hent : findStartEntries data j = findStartEntries data (j + 1) := by
      rw [findStartEntries, dif_pos hlt, if_neg hc4, if_neg hc3]
    have hn4 : ¬ (data.drop j).take 4 = [0, 0, 0, 1] := by
      intro hx
      exact hc4 ⟨by have := take4_len hx; simp [List.length_drop] at this; omega, hx⟩
    have hn3 : ¬ (data.drop j).take 3 = [0, 0, 1] := by
      intro hx
      exact hc3 ⟨by have := take3_len hx; simp [List.length_drop] at this; omega, hx⟩
    have hdrop : data.drop j = data[j] :: data.drop (j + 1) := List.drop_eq_getElem_cons hlt
    have htail : takeNal (data.drop j) = data[j] :: takeNal (data.drop (j + 1)) := by
      rw [hdrop]
      rw [hdrop] at hn4 hn3
      exact takeNal_cons _ _ hn4 hn3
    constructor
    · intro hnil
      rw [hent] at hnil
      rw [htail, ih.1 hnil, ← hdrop]
    · intro s2 l2 rest hcons
      rw [hent] at hcons
      obtain ⟨hslice, hle, hlt2⟩ := ih.2 s2 l2 rest hcons
      have hje : j + 1 ≤ s2 - l2 := hle
      refine ⟨?_, by omega, hlt2⟩
      rw [htail, hslice, ← dataSlice_cons data j _ hlt hje]
  | case4 j hlt =>
    have hent : findStartEntries data j = [] := by
      rw [findStartEntries, dif_neg hlt]
    have hdrop : data.drop j = [] := List.drop_eq_nil_of_le (by omega)
    constructor
    · intro _
      rw [hdrop, takeNal_nil]
    · intro s2 l2 rest hcons
      rw [hent] at hcons
      cases hcons

theorem buildNalUnits_one (data : List Nat) (s l : Nat) :
    buildNalUnits data [(s, l)]
      = if s < data.length then [dataSlice data s data.length] else [] := by
  show (if s < data.length then [dataSlice data s data.length] else [])
      ++ buildNalUnits data [] = _
  rw [show buildNalUnits data [] = [] from rfl, List.append_nil]

theorem buildNalUnits_cons2 (data : List Nat) (s l s2 l2 : Nat) (rest : List (Nat × Nat)) :
    buildNalUnits data ((s, l) :: (s2, l2) :: rest)
      = (if s < s2 - l2 then [dataSlice data s (s2 - l2)] else [])
          ++ buildNalUnits data ((s2, l2) :: rest) := rfl

/-- The index-based build over the scanned entries computes exactly the
spec-side NAL list of the corresponding suffix. -/
theorem buildNalUnits_spec (data : List Nat) (j : Nat) :
    buildNalUnits data (findStartEntries data j) = specNalUnits (data.drop j) := by
  induction j using findStartEntries.induct data with
  | case1 j hlt hc4 ih =>
    have hent : findStartEntries data j = (j + 4, 4) :: findStartEntries data (j + 4) := by
      rw [findStartEntries, dif_pos hlt, if_pos hc4]
    have hdd : (data.drop j).drop 4 = data.drop (j + 4) := by
      rw [List.drop_drop]
    rw [hent, specNalUnits_sc4 _ hc4.2, hdd, ← ih]
    rcases hE : findStartEntries data (j + 4) with _ | ⟨⟨s2, l2⟩, rest⟩
    · have htn : takeNal (data.drop (j + 4)) = data.drop (j + 4) :=
        (takeNal_drop data (j + 4)).1 hE
      show buildNalUnits data [(j + 4, 4)]
          = pushNal (takeNal (data.drop (j + 4))) (buildNalUnits data [])
      rw [buildNalUnits_one, htn, dataSlice_to_end, show buildNalUnits data [] = [] from rfl]
      by_cases hend : j + 4 < data.length
      · rw [if_pos hend]
        have hne : data.drop (j + 4) ≠ [] := by
          intro hx
          have := List.drop_eq_nil_iff_le.mp hx
          omega
        unfold pushNal
        rw [if_neg hne]
      · rw [if_neg hend]
        have hnil : data.drop (j + 4) = [] := List.drop_eq_nil_of_le (by omega)
        unfold pushNal
        rw [if_pos hnil]
    · obtain ⟨hslice, hle, hlt2⟩ := (takeNal_drop data (j + 4)).2 s2 l2 rest hE
      rw [buildNalUnits_cons2, hslice]
      by_cases hcmp : j + 4 < s2 - l2
      · rw [if_pos hcmp]
        unfold pushNal
        rw [if_neg (dataSlice_ne_nil data (j + 4) (s2 - l2) hcmp (by omega))]
        rfl
      · rw [if_neg hcmp]
        have hempty : dataSlice data (j + 4) (s2 - l2) = [] := by
          unfold dataSlice
          have hz : s2 - l2 - (j + 4) = 0 := by omega
          rw [hz]
          rfl
        unfold pushNal
        rw [if_pos hempty]
        rfl
  | case2 j hlt hc4 hc3 ih =>
    have hent : findStartEntries data j = (j + 3, 3) :: findStartEntries data (j + 3) := by
      rw [findStartEntries, dif_pos hlt, if_neg hc4, if_pos hc3]
    have hn4 : ¬ (data.drop j).take 4 = [0, 0, 0, 1] := by
      intro hx
      exact hc4 ⟨by have := take4_len hx; simp [List.length_drop] at this; omega, hx⟩
    have hdd : (data.drop j).drop 3 = data.drop (j + 3) := by
      rw [List.drop_drop]
    rw [hent, specNalUnits_sc3 _ hn4 hc3.2, hdd, ← ih]
    rcases hE : findStartEntries data (j + 3) with _ | ⟨⟨s2, l2⟩, rest⟩
    · have htn : takeNal (data.drop (j + 3)) = data.drop (j + 3) :=
        (takeNal_drop data (j + 3)).1 hE
      show buildNalUnits data [(j + 3, 3)]
          = pushNal (takeNal (data.drop (j + 3))) (buildNalUnits data [])
      rw [buildNalUnits_one, htn, dataSlice_to_end, show buildNalUnits data [] = [] from rfl]
      by_cases hend : j + 3 < data.length
      · rw [if_pos hend]
        have hne : data.drop (j + 3) ≠ [] := by
          intro hx
          have := List.drop_eq_nil_iff_le.mp hx
          omega
        unfold pushNal
        rw [if_neg hne]
      · rw [if_neg hend]
        have hnil : data.drop (j + 3) = [] := List.drop_eq_nil_of_le (by omega)
        unfold pushNal
        rw [if_pos hnil]
    · obtain ⟨hslice, hle, hlt2⟩ := (takeNal_drop data (j + 3)).2 s2 l2 rest hE
      rw [buildNalUnits_cons2, hslice]
      by_cases hcmp : j + 3 < s2 - l2
      · rw [if_pos hcmp]
        unfold pushNal
        rw [if_neg (dataSlice_ne_nil data (j + 3) (s2 - l2) hcmp (by omega))]
        rfl
      · rw [if_neg hcmp]
        have hempty : dataSlice data (j + 3) (s2 - l2) = [] := by
          unfold dataSlice
          have hz : s2 - l2 - (j + 3) = 0 := by omega
          rw [hz]
          rfl
        unfold pushNal
        rw [if_pos hempty]
        rfl
  | case3 j hlt hc4 hc3 ih =>
    have hent : findStartEntries data j = findStartEntries data (j + 1) := by
      rw [findStartEntries, dif_pos hlt, if_neg hc4, if_neg hc3]
    have hn4 : ¬ (data.drop j).take 4 = [0, 0, 0, 1] := by
      intro hx
      exact hc4 ⟨by have := take4_len hx; simp [List.length_drop] at this; omega, hx⟩
    have hn3 : ¬ (data.drop j).take 3 = [0, 0, 1] := by
      intro hx
      exact hc3 ⟨by have := take3_len hx; simp [List.length_drop] at this; omega, hx⟩
    have hdrop : data.drop j = data[j] :: data.drop (j + 1) := List.drop_eq_getElem_cons hlt
    rw [hent, ih, hdrop]
    rw [hdrop] at hn4 hn3
    exact (specNalUnits_cons _ _ hn4 hn3).symm
  | case4 j hlt =>
    have hent : findStartEntries data j = [] := by
      rw [findStartEntries, dif_neg hlt]
    have hdrop : data.drop j = [] := List.drop_eq_nil_of_le (by omega)
    rw [hent, hdrop, specNalUnits_nil]
    rfl

theorem extract_nal_units_eq_spec (data : List Nat) :
    H264Packetizer.extract_nal_units data = specNalUnits data := by
  have := buildNalUnits_spec data 0
  rw [List.drop_zero] at this
  exact this

theorem specNalUnits_ne_nil (l : List Nat) : ∀ nal ∈ specNalUnits l, nal ≠ [] := by
  induction l using specNalUnits.induct with
  | case1 l h4 ih =>
    rw [specNalUnits_sc4 _ h4]
    intro nal hmem
    unfold pushNal at hmem
    by_cases he : takeNal (l.drop 4) = []
    · rw [if_pos he] at hmem
      exact ih nal hmem
    · rw [if_neg he] at hmem
      rcases List.mem_cons.mp hmem with heq | hmem2
      · rw [heq]
        exact he
      · exact ih nal hmem2
  | case2 l h4 h3 ih =>
    rw [specNalUnits_sc3 _ h4 h3]
    intro nal hmem
    unfold pushNal at hmem
    by_cases he : takeNal (l.drop 3) = []
    · rw [if_pos he] at hmem
      exact ih nal hmem
    · rw [if_neg he] at hmem
      rcases List.mem_cons.mp hmem with heq | hmem2
      · rw [heq]
        exact he
      · exact ih nal hmem2
  | case3 h4 h3 =>
    rw [specNalUnits_nil]
    intro nal hmem
    cases hmem
  | case4 b rest h4a h3a h4b h3b ih =>
    rw [specNalUnits_cons _ _ h4a h3a]
    exact ih

theorem findStartEntries_no_start_code (data : List Nat)
    (hNo : ∀ k, (data.drop k).take 3 ≠ [0, 0, 1]) (j : Nat) :
    findStartEntries data j = [] := by
  induction j using findStartEntries.induct data with
  | case1 j hlt hc4 ih =>
    exfalso
    have hsplit : data.drop j = [0, 0, 0, 1] ++ (data.drop j).drop 4 := by
      conv_lhs => rw [← List.take_append_drop 4 (data.drop j)]
      rw [hc4.2]
    have hdrop1 : data.drop (j + 1) = ((data.drop j).drop 1) := by
      rw [List.drop_drop]
    apply hNo (j + 1)
    rw [hdrop1, hsplit]
    rfl
  | case2 j hlt hc4 hc3 ih =>
    exact absurd hc3.2 (hNo j)
  | case3 j hlt hc4 hc3 ih =>
    rw [findStartEntries, dif_pos hlt, if_neg hc4, if_neg hc3]
    exact ih
  | case4 j hlt =>
    rw [findStartEntries, dif_neg hlt]

theorem write_packet_bytes (pt ssrc s ts : Nat) (m : Bool) (tail : List Nat) :
    ((RtpHeader.write ⟨pt, ssrc, s, ts⟩ m).1 ++ tail)[0]? = some 128
    ∧ ((RtpHeader.write ⟨pt, ssrc, s, ts⟩ m).1 ++ tail)[1]?
        = some ((if m then 128 else 0) ||| pt)
    ∧ seqNum ((RtpHeader.write ⟨pt, ssrc, s, ts⟩ m).1 ++ tail) = s % U16_MOD
    ∧ (((RtpHeader.write ⟨pt, ssrc, s, ts⟩ m).1 ++ tail).drop 4).take 4 = be32 (ts % U32_MOD) := by
  refine ⟨?_, ?_, ?_, ?_⟩
  · simp [RtpHeader.write, be16, be32]
  · simp [RtpHeader.write, be16, be32]
  · simp only [RtpHeader.write, be16, be32, seqNum, List.cons_append, List.append_assoc,
      List.getElem?_cons_succ, List.getElem?_cons_zero, Option.getD_some]
    unfold U16_MOD
    omega
  · simp [RtpHeader.write, be16, be32]

/-- Claim C3: `extract_nal_units` returns exactly the NAL units delimited
by Annex-B start codes (3- and 4-byte codes mixed), each NAL running from
the byte after its start code to the byte before the next start code or
to end-of-input, zero-length NALs omitted; an empty input or one without
any start code yields the empty list. -/
theorem C3_extract_nal_units (data : List Nat) :
    H264Packetizer.extract_nal_units data = specNalUnits data
    ∧ H264Packetizer.extract_nal_units ([] : List Nat) = []
    ∧ ((∀ j, (data.drop j).take 3 ≠ [0, 0, 1]) → H264Packetizer.extract_nal_units data = [])
    ∧ (∀ nal ∈ H264Packetizer.extract_nal_units data, nal ≠ []) := by
  refine ⟨extract_nal_units_eq_spec data, ?_, ?_, ?_⟩
  · exact (extract_nal_units_eq_spec []).trans specNalUnits_nil
  · intro hNo
    unfold H264Packetizer.extract_nal_units
    rw [findStartEntries_no_start_code data hNo 0]
    rfl
  · rw [extract_nal_units_eq_spec data]
    exact specNalUnits_ne_nil data

/-- Witness for C3 at a mixed-start-code stream and at a start-code-free
input. -/
theorem C3_extract_nal_units_witness :
    (H264Packetizer.extract_nal_units [0, 0, 0, 1, 101, 170, 0, 0, 1, 104, 206]
        = specNalUnits [0, 0, 0, 1, 101, 170, 0, 0, 1, 104, 206])
    ∧ (∀ j, (([255, 254] : List Nat).drop j).take 3 ≠ [0, 0, 1])
    ∧ H264Packetizer.extract_nal_units [255, 254] = [] := by
  have hno : ∀ j, (([255, 254] : List Nat).drop j).take 3 ≠ [0, 0, 1] := by
    intro j
    match j with
    | 0 => decide
    | 1 => decide
    | j + 2 =>
      rw [List.drop_eq_nil_of_le (by simp)]
      decide
  exact ⟨(C3_extract_nal_units _).1, hno, (C3_extract_nal_units [255, 254]).2.2.1 hno⟩

/-- Claim C6: every `packetize` call advances the RTP timestamp by exactly
`timestamp_increment`, exactly once per call — including calls that emit
zero packets because the input is empty or contains no start code (which
return an empty packet list without error) — and the timestamp bytes of
every packet emitted within a single call are those of the timestamp at
entry (the timestamp is never modified between packets of one call). -/
theorem C6_packetize_timestamp (p : H264Packetizer) (data : List Nat) (inc : Nat)
    (hseq : p.header.sequence < U16_MOD) :
    (p.packetize data inc).2.header.timestamp = (p.header.timestamp + inc) % U64_MOD
    ∧ (data = [] → (p.packetize data inc).1 = [])
    ∧ ((∀ j, (data.drop j).take 3 ≠ [0, 0, 1]) → (p.packetize data inc).1 = [])
    ∧ (∀ pk ∈ (p.packetize data inc).1,
        (pk.drop 4).take 4 = be32 (p.header.timestamp % U32_MOD)) := by
  obtain ⟨-, -, hts, -, hpackets, hshape⟩ := packetize_shape p data inc hseq
  have hofExtract : H264Packetizer.extract_nal_units data = [] → (p.packetize data inc).1 = [] := by
    intro hx
    rw [hpackets, hx]
    rfl
  refine ⟨hts, ?_, ?_, ?_⟩
  · intro hd
    subst hd
    exact hofExtract ((extract_nal_units_eq_spec []).trans specNalUnits_nil)
  · intro hNo
    apply hofExtract
    unfold H264Packetizer.extract_nal_units
    rw [findStartEntries_no_start_code data hNo 0]
    rfl
  · intro pk hmem
    obtain ⟨i, hi, heq⟩ := List.mem_iff_getElem.mp hmem
    obtain ⟨m, tail, hpk⟩ := hshape i hi
    rw [← heq, hpk]
    exact (write_packet_bytes _ _ _ _ _ _).2.2.2

/-- Witness for C6: a fresh packetizer, a one-NAL frame, and an input with
no start code. -/
theorem C6_packetize_timestamp_witness :
    ((H264Packetizer.new 96 4660).header.sequence < U16_MOD
      ∧ ((H264Packetizer.new 96 4660).packetize [0, 0, 0, 1, 101, 170] 3000).2.header.timestamp
          = ((H264Packetizer.new 96 4660).header.timestamp + 3000) % U64_MOD)
    ∧ (([] : List Nat) = [] →
        ((H264Packetizer.new 96 4660).packetize [] 3000).1 = []) := by
  refine ⟨⟨by decide, ?_⟩, ?_⟩
  · exact (C6_packetize_timestamp (H264Packetizer.new 96 4660) [0, 0, 0, 1, 101, 170] 3000
      (by decide)).1
  · exact (C6_packetize_timestamp (H264Packetizer.new 96 4660) [] 3000 (by decide)).2.1

/-- Claim C2: every RTP packet emitted for a sequence of frames pushed
through one packetizer begins with version 2 in the top two bits of byte 0
and carries the configured 7-bit payload type in the low bits of byte 1;
and the 16-bit big-endian sequence number of each emitted packet is
exactly one greater, modulo 2^16, than that of the previously emitted
packet. -/
theorem C2_rtp_stream_invariants (p : H264Packetizer) (frames : List (List Nat × Nat))
    (hpt : p.header.pt < 128) (hseq : p.header.sequence < U16_MOD) :
    (∀ pk ∈ (packetizeFrames p frames).1,
      (∃ b0, pk[0]? = some b0 ∧ b0 / 64 = 2)
      ∧ (∃ b1, pk[1]? = some b1 ∧ b1 % 128 = p.header.pt))
    ∧ (∀ i, (h : i + 1 < (packetizeFrames p frames).1.length) →
        seqNum ((packetizeFrames p frames).1[i + 1])
          = (seqNum ((packetizeFrames p frames).1[i]) + 1) % U16_MOD) := by
  obtain ⟨-, -, -, hshape⟩ := packetizeFrames_shape frames p hseq
  have hseqAt : ∀ i, (hi : i < (packetizeFrames p frames).1.length) →
      seqNum ((packetizeFrames p frames).1[i])
        = (p.header.sequence + i) % U16_MOD := by
    intro i hi
    obtain ⟨m, ts, tail, hpk⟩ := hshape i hi
    rw [hpk, (write_packet_bytes p.header.pt p.header.ssrc _ ts m tail).2.2.1]
    unfold U16_MOD
    omega
  constructor
  · intro pk hmem
    obtain ⟨i, hi, heq⟩ := List.mem_iff_getElem.mp hmem
    obtain ⟨m, ts, tail, hpk⟩ := hshape i hi
    obtain ⟨h0, h1, -, -⟩ :=
      write_packet_bytes p.header.pt p.header.ssrc ((p.header.sequence + i) % U16_MOD) ts m tail
    constructor
    · refine ⟨128, ?_, by omega⟩
      rw [← heq, hpk]
      exact h0
    · refine ⟨(if m then 128 else 0) ||| p.header.pt, ?_, ?_⟩
      · rw [← heq, hpk]
        exact h1
      · cases m
        · simp only [Bool.false_eq_true, if_false, Nat.zero_or]
          omega
        · simp only [if_true]
          rw [lor_128_of_lt _ hpt]
          omega
  · intro i hlt
    rw [hseqAt (i + 1) hlt, hseqAt i (by omega)]
    unfold U16_MOD
    omega

/-- Witness for C2: two one-NAL frames through a fresh packetizer. -/
theorem C2_rtp_stream_invariants_witness :
    ((H264Packetizer.new 96 4660).header.pt < 128
      ∧ (H264Packetizer.new 96 4660).header.sequence < U16_MOD)
    ∧ (∀ pk ∈ (packetizeFrames (H264Packetizer.new 96 4660)
          [([0, 0, 0, 1, 101, 170], 3000), ([0, 0, 0, 1, 102, 171], 3000)]).1,
        (∃ b0, pk[0]? = some b0 ∧ b0 / 64 = 2)
        ∧ (∃ b1, pk[1]? = some b1 ∧ b1 % 128 = (H264Packetizer.new 96 4660).header.pt)) := by
  refine ⟨⟨by decide, by decide⟩, ?_⟩
  exact (C2_rtp_stream_invariants (H264Packetizer.new 96 4660)
    [([0, 0, 0, 1, 101, 170], 3000), ([0, 0, 0, 1, 102, 171], 3000)]
    (by decide) (by decide)).1

/-! ### FU-A packet structure (claim C1) -/
set_option maxRecDepth 4000 in
theorem fuIndicator_bits (n : Nat) (hn : n < 256) :
    (((n &&& 96) ||| 28) &&& 31 = 28) ∧ (((n &&& 96) ||| 28) &&& 96 = n &&& 96) := by
  have hall : ∀ q : Fin 256, ((((q : Nat) &&& 96) ||| 28) &&& 31 = 28)
      ∧ ((((q : Nat) &&& 96) ||| 28) &&& 96 = (q : Nat) &&& 96) := by decide
  exact hall ⟨n, hn⟩

set_option maxRecDepth 4000 in
theorem fuHeader_bits (s e : Bool) (n : Nat) (hn : n < 256) :
    ((if s then 128 else 0) ||| ((if e then 64 else 0) ||| (n &&& 31))) &&& 31 = n &&& 31
    ∧ ((if s then 128 else 0) ||| ((if e then 64 else 0) ||| (n &&& 31))) / 128
        = (if s then 1 else 0)
    ∧ ((if s then 128 else 0) ||| ((if e then 64 else 0) ||| (n &&& 31))) / 64 % 2
        = (if e then 1 else 0) := by
  have hall : ∀ (s e : Bool) (q : Fin 256),
      ((if s then 128 else 0) ||| ((if e then 64 else 0) ||| ((q : Nat) &&& 31))) &&& 31
          = (q : Nat) &&& 31
      ∧ ((if s then 128 else 0) ||| ((if e then 64 else 0) ||| ((q : Nat) &&& 31))) / 128
          = (if s then 1 else 0)
      ∧ ((if s then 128 else 0) ||| ((if e then 64 else 0) ||| ((q : Nat) &&& 31))) / 64 % 2
          = (if e then 1 else 0) := by decide
  exact hall s e ⟨n, hn⟩

theorem marker_byte_div (m : Bool) (pt : Nat) (hpt : pt < 128) :
    ((if m then 128 else 0) ||| pt) / 128 = (if m then 1 else 0) := by
  cases m
  · simp only [Bool.false_eq_true, if_false, Nat.zero_or]
    omega
  · simp only [if_true]
    rw [lor_128_of_lt _ hpt]
    omega

theorem fua_packet_bytes (pt ssrc s ts : Nat) (m : Bool) (fi fh : Nat) (chunk : List Nat) :
    ((RtpHeader.write ⟨pt, ssrc, s, ts⟩ m).1 ++ fi :: fh :: chunk)[12]?.getD 0 = fi
    ∧ ((RtpHeader.write ⟨pt, ssrc, s, ts⟩ m).1 ++ fi :: fh :: chunk)[13]?.getD 0 = fh
    ∧ ((RtpHeader.write ⟨pt, ssrc, s, ts⟩ m).1 ++ fi :: fh :: chunk).length
        = 14 + chunk.length
    ∧ ((RtpHeader.write ⟨pt, ssrc, s, ts⟩ m).1 ++ fi :: fh :: chunk).drop 14 = chunk
    ∧ ((RtpHeader.write ⟨pt, ssrc, s, ts⟩ m).1 ++ fi :: fh :: chunk)[1]?.getD 0
        = ((if m then 128 else 0) ||| pt) := by
  refine ⟨?_, ?_, ?_, ?_, ?_⟩ <;> simp [RtpHeader.write, be16, be32] <;> omega

/-- Closed form of the FU-A loop: the `i`-th emitted packet is an RTP
header (marker set exactly on the last fragment of the last NAL) followed
by the FU indicator, the FU header (start bit on the first fragment,
end bit on the last) and the `i`-th `maxFragment`-sized chunk of the
remaining payload; the chunks concatenate back to the payload. -/
theorem fuaLoop_fua (mf fi nt : Nat) (il : Bool) (h : RtpHeader) (first : Bool)
    (remaining : List Nat) :
    mf ≠ 0 → remaining ≠ [] →
    (fuaLoop mf fi nt il h first remaining).1 ≠ []
    ∧ ((fuaLoop mf fi nt il h first remaining).1.map (fun pk => pk.drop 14)).flatten = remaining
    ∧ ∀ i, (hi : i < (fuaLoop mf fi nt il h first remaining).1.length) →
        ∃ s : Nat,
          (fuaLoop mf fi nt il h first remaining).1[i]
            = (RtpHeader.write ⟨h.pt, h.ssrc, s, h.timestamp⟩
                (il && decide (i + 1 = (fuaLoop mf fi nt il h first remaining).1.length))).1
              ++ fi
              :: ((if first = true ∧ i = 0 then 128 else 0)
                  ||| ((if i + 1 = (fuaLoop mf fi nt il h first remaining).1.length then 64 else 0)
                    ||| nt))
              :: ((remaining.drop (i * mf)).take mf) := by
  induction h, first, remaining using fuaLoop.induct mf fi nt il with
  | case1 h first remaining hstop =>
    intro hmf hrem
    rcases hstop with hstop | hstop
    · exact absurd hstop hrem
    · exact absurd hstop hmf
  | case2 h first remaining hstop lastFragment marker w ih =>
    intro hmf hrem
    have hunfold : fuaLoop mf fi nt il h first remaining
        = ((w.1 ++ fi :: ((if first then 128 else 0)
              ||| ((if lastFragment then 64 else 0) ||| nt)) :: remaining.take mf)
            :: (fuaLoop mf fi nt il w.2 false (remaining.drop mf)).1,
           (fuaLoop mf fi nt il w.2 false (remaining.drop mf)).2) := by
      rw [fuaLoop, dif_neg hstop]
    rw [hunfold]
    by_cases hrest : remaining.drop mf = []
    · -- single remaining fragment: the recursive call emits nothing
      have hrec : (fuaLoop mf fi nt il w.2 false (remaining.drop mf)).1 = [] := by
        rw [hrest, fuaLoop, dif_pos (Or.inl rfl)]
      have hlast : lastFragment = true := by
        show decide (remaining.length ≤ mf) = true
        rw [decide_eq_true_eq]
        exact List.drop_eq_nil_iff.mp hrest
      rw [hrec]
      refine ⟨by simp, ?_, ?_⟩
      · simp only [List.map_cons, List.map_nil, List.flatten_cons, List.flatten_nil,
          List.append_nil]
        have hdrop14 : (w.1 ++ fi :: ((if first then 128 else 0)
              ||| ((if lastFragment then 64 else 0) ||| nt)) :: remaining.take mf).drop 14
            = remaining.take mf := by
          show ((h.write marker).1 ++ _ :: _ :: _).drop 14 = _
          simp [RtpHeader.write, be16, be32]
        rw [hdrop14]
        exact List.take_of_length_le (List.drop_eq_nil_iff.mp hrest)
      · intro i hi
        simp only [List.length_cons, List.length_nil] at hi
        have hz : i = 0 := by omega
        subst hz
        refine ⟨h.sequence, ?_⟩
        simp only [List.getElem_cons_zero, List.length_cons, List.length_nil, Nat.zero_add]
        have hw : w = h.write marker := rfl
        have hmm : marker = (il && lastFragment) := rfl
        rw [hw, hmm, hlast]
        simp
    · -- at least one further fragment
      have hlast : lastFragment = false := by
        show decide (remaining.length ≤ mf) = false
        rw [decide_eq_false_iff_not]
        intro hx
        exact hrest (List.drop_eq_nil_iff.mpr hx)
      obtain ⟨hne, hflat, hidx⟩ := ih hmf hrest
      refine ⟨by simp, ?_, ?_⟩
      · simp only [List.map_cons, List.flatten_cons]
        have hdrop14 : (w.1 ++ fi :: ((if first then 128 else 0)
              ||| ((if lastFragment then 64 else 0) ||| nt)) :: remaining.take mf).drop 14
            = remaining.take mf := by
          show ((h.write marker).1 ++ _ :: _ :: _).drop 14 = _
          simp [RtpHeader.write, be16, be32]
        rw [hdrop14, hflat]
        exact List.take_append_drop mf remaining
      · intro i hi
        cases i with
        | zero =>
          refine ⟨h.sequence, ?_⟩
          simp only [List.getElem_cons_zero, List.length_cons]
          have hm0 : marker = false := by
            have hmm : marker = (il && lastFragment) := rfl
            rw [hmm, hlast, Bool.and_false]
          have hww : w = h.write false := by
            have hw0 : w = h.write marker := rfl
            rw [hw0, hm0]
          have hne2 : (fuaLoop mf fi nt il (h.write false).2 false (remaining.drop mf)).1 ≠ [] := by
            rw [← hww]
            exact hne
          rw [hww, hlast]
          simp [hne2]
        | succ i =>
          simp only [List.getElem_cons_succ, List.length_cons]
          have hi2 : i < (fuaLoop mf fi nt il w.2 false (remaining.drop mf)).1.length := by
            simp only [List.length_cons] at hi
            omega
          obtain ⟨s, hs⟩ := hidx i hi2
          refine ⟨s, ?_⟩
          rw [hs]
          have hw2pt : w.2.pt = h.pt := rfl
          have hw2ssrc : w.2.ssrc = h.ssrc := rfl
          have hw2ts : w.2.timestamp = h.timestamp := rfl
          rw [hw2pt, hw2ssrc, hw2ts]
          have hb : decide (i + 1 = (fuaLoop mf fi nt il w.2 false (remaining.drop mf)).1.length)
              = decide (i + 1 + 1
                  = (fuaLoop mf fi nt il w.2 false (remaining.drop mf)).1.length + 1) := by
            by_cases hx : i + 1 = (fuaLoop mf fi nt il w.2 false (remaining.drop mf)).1.length
            · rw [decide_eq_true hx, decide_eq_true (by omega)]
            · rw [decide_eq_false hx, decide_eq_false (by omega)]
          have hSboth : (if false = true ∧ i = 0 then (128 : Nat) else 0)
              = (if first = true ∧ i + 1 = 0 then 128 else 0) := by
            simp
          have hEeq : (if i + 1 = (fuaLoop mf fi nt il w.2 false (remaining.drop mf)).1.length
                then (64 : Nat) else 0)
              = (if i + 1 + 1 = (fuaLoop mf fi nt il w.2 false (remaining.drop mf)).1.length + 1
                then 64 else 0) := by
            by_cases hx : i + 1 = (fuaLoop mf fi nt il w.2 false (remaining.drop mf)).1.length
            · rw [if_pos hx, if_pos (by omega)]
            · rw [if_neg hx, if_neg (by omega)]
          have hchunk2 : (remaining.drop mf).drop (i * mf) = remaining.drop ((i + 1) * mf) := by
            rw [List.drop_drop]
            congr 1
            ring
          rw [hb, hSboth, hEeq, hchunk2]

/-- Claim C1: for the H.264 packetizer at the default MTU 1400, a
non-empty NAL that fits in the MTU yields exactly one RTP packet of
length `12 + len(NAL)` whose payload is the NAL and whose marker bit is
set iff the NAL is the last of the frame; a larger NAL is fragmented
into at least two FU-A packets, each of length at most `12 + MTU`, whose
fragment payloads concatenate to NAL bytes `1..end`, whose FU indicator
has low five bits 28 and bits 5-6 equal to the NAL's NRI, whose FU
header has low five bits `NAL[0] & 0x1F`, start bit exactly on the
first fragment and end bit exactly on the last, and whose RTP marker
bit is set iff the packet is the last fragment of the last NAL. -/
theorem C1_h264_packetize_nal (p : H264Packetizer) (nal : List Nat) (il : Bool)
    (hmtu : p.mtu = DEFAULT_MTU) (hne : nal ≠ [])
    (hpt : p.header.pt < 128) (hbytes : ∀ b ∈ nal, b < 256) :
    (nal.length ≤ DEFAULT_MTU →
      (p.packetize_nal nal il).1.length = 1
      ∧ ∀ pk ∈ (p.packetize_nal nal il).1,
          pk.length = 12 + nal.length
          ∧ pk[1]?.getD 0 / 128 = (if il = true then 1 else 0)
          ∧ pk.drop 12 = nal)
    ∧ (DEFAULT_MTU < nal.length →
      2 ≤ (p.packetize_nal nal il).1.length
      ∧ (∀ pk ∈ (p.packetize_nal nal il).1, pk.length ≤ 12 + DEFAULT_MTU)
      ∧ ((p.packetize_nal nal il).1.map (fun pk => pk.drop 14)).flatten = nal.tail
      ∧ ∀ i, (hi : i < (p.packetize_nal nal il).1.length) →
          ((p.packetize_nal nal il).1[i])[12]?.getD 0 &&& 31 = 28
          ∧ ((p.packetize_nal nal il).1[i])[12]?.getD 0 &&& 96 = nal.head! &&& 96
          ∧ ((p.packetize_nal nal il).1[i])[13]?.getD 0 &&& 31 = nal.head! &&& 31
          ∧ ((p.packetize_nal nal il).1[i])[13]?.getD 0 / 128 = (if i = 0 then 1 else 0)
          ∧ ((p.packetize_nal nal il).1[i])[13]?.getD 0 / 64 % 2
              = (if i + 1 = (p.packetize_nal nal il).1.length then 1 else 0)
          ∧ ((p.packetize_nal nal il).1[i])[1]?.getD 0 / 128
              = (if il = true ∧ i + 1 = (p.packetize_nal nal il).1.length
                  then 1 else 0)) := by
  constructor
  · intro hfit
    have hfit2 : nal.length ≤ p.mtu := by rw [hmtu]; exact hfit
    have hr : (p.packetize_nal nal il).1 = [(p.header.write il).1 ++ nal] := by
      unfold H264Packetizer.packetize_nal
      rw [if_neg hne, if_pos hfit2]
    rw [hr]
    refine ⟨rfl, ?_⟩
    intro pk hpk
    simp only [List.mem_singleton] at hpk
    subst hpk
    refine ⟨?_, ?_, ?_⟩
    · simp [RtpHeader.write, be16, be32]
      omega
    · have hb1 : ((p.header.write il).1 ++ nal)[1]?.getD 0
          = ((if il then 128 else 0) ||| p.header.pt) := by
        simp [RtpHeader.write, be16, be32]
      rw [hb1, marker_byte_div il p.header.pt hpt]
    · simp [RtpHeader.write, be16, be32]
  · intro hbig
    have hb400 : 1400 < nal.length := hbig
    have hnofit : ¬ nal.length ≤ p.mtu := by rw [hmtu]; exact Nat.not_le.mpr hbig
    have hr : (p.packetize_nal nal il).1
        = (fuaLoop (p.mtu - 2) ((nal.head! &&& 96) ||| 28) (nal.head! &&& 31) il
            p.header true nal.tail).1 := by
      unfold H264Packetizer.packetize_nal
      rw [if_neg hne, if_neg hnofit]
    have hmf : p.mtu - 2 ≠ 0 := by rw [hmtu]; decide
    have htail : nal.tail ≠ [] := by
      intro hx
      have h1 : nal.tail.length = 0 := by rw [hx]; rfl
      rw [List.length_tail] at h1
      omega
    obtain ⟨hne2, hflat, hidx⟩ := fuaLoop_fua (p.mtu - 2) ((nal.head! &&& 96) ||| 28)
      (nal.head! &&& 31) il p.header true nal.tail hmf htail
    have hhead : nal.head! < 256 := by
      cases nal with
      | nil => exact absurd rfl hne
      | cons a t => exact hbytes a (List.mem_cons_self a t)
    have hmtu2 : p.mtu - 2 = 1398 := by rw [hmtu]; rfl
    have hdm : DEFAULT_MTU = 1400 := rfl
    rw [hr]
    refine ⟨?_, ?_, hflat, ?_⟩
    · by_contra hcon
      have hp1 : 0 < (fuaLoop (p.mtu - 2) ((nal.head! &&& 96) ||| 28) (nal.head! &&& 31) il
          p.header true nal.tail).1.length := List.length_pos.mpr hne2
      have h1 : (fuaLoop (p.mtu - 2) ((nal.head! &&& 96) ||| 28) (nal.head! &&& 31) il
          p.header true nal.tail).1.length = 1 := by omega
      obtain ⟨a, ha⟩ := List.length_eq_one.mp h1
      have hd : a.drop 14 = nal.tail := by
        rw [ha] at hflat
        simpa using hflat
      have hmem : a ∈ (fuaLoop (p.mtu - 2) ((nal.head! &&& 96) ||| 28) (nal.head! &&& 31) il
          p.header true nal.tail).1 := by
        rw [ha]
        exact List.mem_singleton_self a
      obtain ⟨i, hi, hpe⟩ := List.mem_iff_getElem.mp hmem
      obtain ⟨s, hs⟩ := hidx i hi
      have h0 : i = 0 := by omega
      subst h0
      rw [hpe] at hs
      rw [hs] at hd
      rw [(fua_packet_bytes _ _ _ _ _ _ _ _).2.2.2.1] at hd
      have hcl : ((nal.tail.drop (0 * (p.mtu - 2))).take (p.mtu - 2)).length ≤ p.mtu - 2 := by
        simp only [List.length_take]
        exact Nat.min_le_left _ _
      have hlen := congrArg List.length hd
      rw [List.length_tail] at hlen
      omega
    · intro pk hpk
      obtain ⟨i, hi, hpe⟩ := List.mem_iff_getElem.mp hpk
      obtain ⟨s, hs⟩ := hidx i hi
      rw [← hpe, hs]
      rw [(fua_packet_bytes _ _ _ _ _ _ _ _).2.2.1]
      have hcl : ((nal.tail.drop (i * (p.mtu - 2))).take (p.mtu - 2)).length ≤ p.mtu - 2 := by
        simp only [List.length_take]
        exact Nat.min_le_left _ _
      omega
    · intro i hi
      obtain ⟨s, hs⟩ := hidx i hi
      rw [hs]
      have hsif : (if true = true ∧ i = 0 then (128 : Nat) else 0)
          = (if decide (i = 0) = true then 128 else 0) := by
        by_cases h0 : i = 0 <;> simp [h0]
      have heif : (if i + 1 = (fuaLoop (p.mtu - 2) ((nal.head! &&& 96) ||| 28)
              (nal.head! &&& 31) il p.header true nal.tail).1.length then (64 : Nat) else 0)
          = (if decide (i + 1 = (fuaLoop (p.mtu - 2) ((nal.head! &&& 96) ||| 28)
              (nal.head! &&& 31) il p.header true nal.tail).1.length) = true
              then 64 else 0) := by
        by_cases hL : i + 1 = (fuaLoop (p.mtu - 2) ((nal.head! &&& 96) ||| 28)
            (nal.head! &&& 31) il p.header true nal.tail).1.length <;> simp [hL]
      refine ⟨?_, ?_, ?_, ?_, ?_, ?_⟩
      · rw [(fua_packet_bytes _ _ _ _ _ _ _ _).1]
        exact (fuIndicator_bits nal.head! hhead).1
      · rw [(fua_packet_bytes _ _ _ _ _ _ _ _).1]
        exact (fuIndicator_bits nal.head! hhead).2
      · rw [(fua_packet_bytes _ _ _ _ _ _ _ _).2.1, hsif, heif]
        exact (fuHeader_bits _ _ _ hhead).1
      · rw [(fua_packet_bytes _ _ _ _ _ _ _ _).2.1, hsif, heif,
            (fuHeader_bits _ _ nal.head! hhead).2.1]
        by_cases h0 : i = 0 <;> simp [h0]
      · rw [(fua_packet_bytes _ _ _ _ _ _ _ _).2.1, hsif, heif,
            (fuHeader_bits _ _ nal.head! hhead).2.2]
        by_cases hL : i + 1 = (fuaLoop (p.mtu - 2) ((nal.head! &&& 96) ||| 28)
            (nal.head! &&& 31) il p.header true nal.tail).1.length <;> simp [hL]
      · rw [(fua_packet_bytes _ _ _ _ _ _ _ _).2.2.2.2, marker_byte_div _ _ hpt]
        by_cases hA : il = true <;>
          by_cases hB : i + 1 = (fuaLoop (p.mtu - 2) ((nal.head! &&& 96) ||| 28)
              (nal.head! &&& 31) il p.header true nal.tail).1.length <;>
          simp [hA, hB]

/-- Witness for C1: a fresh packetizer with payload type 96 and a
three-byte IDR NAL, every hypothesis discharged at this concrete
input. -/
theorem C1_h264_packetize_nal_witness :
    ((H264Packetizer.new 96 0).packetize_nal [0x65, 1, 2] true).1.length = 1 :=
  ((C1_h264_packetize_nal (H264Packetizer.new 96 0) [0x65, 1, 2] true rfl (by decide)
      (by decide) (by decide)).1 (by decide)).1

theorem mem_add_header_self (r : RtspResponse) (n v : List Char) :
    (n, v) ∈ (r.add_header n v).headers := by
  simp [RtspResponse.add_header]

theorem mem_add_header_of_mem (r : RtspResponse) (a : List Char × List Char)
    (n v : List Char) (h : a ∈ r.headers) : a ∈ (r.add_header n v).headers := by
  simp [RtspResponse.add_header]
  exact Or.inl h

theorem mem_with_body (r : RtspResponse) (a : List Char × List Char) (b : List Char)
    (h : a ∈ r.headers) : a ∈ (r.with_body b).headers := h

/-- Claim C7: on every branch of every method, including every error
response, the response produced by `MethodHandler::handle` carries a
`CSeq` header whose value is the request's CSeq header value, or `"0"`
when the request has none. -/
theorem C7_handle_echoes_cseq (h : MethodHandler) (request : RtspRequest) :
    ((("CSeq").toList), (request.cseq).getD (("0").toList))
      ∈ (h.handle request).1.headers := by
  unfold MethodHandler.handle MethodHandler.handle_options MethodHandler.handle_describe
    MethodHandler.handle_setup MethodHandler.handle_play MethodHandler.handle_pause
    MethodHandler.handle_teardown MethodHandler.handle_get_parameter
  dsimp only
  repeat' split
  all_goals
    simp [RtspResponse.add_header, RtspResponse.with_body, RtspResponse.new,
      RtspResponse.ok, RtspResponse.not_found, RtspResponse.bad_request]

/-! Sanity examples for `rustLines`: the `str::lines` doc example keeps
the carriage return of an unterminated final line, and a request whose
last line is a lone carriage return fails with `InvalidHeader` (the
line is non-blank and has no colon). -/

example : rustLines (("foo\r\nbar\n\nbaz\r").toList)
    = [("foo").toList, ("bar").toList, [], ("baz\r").toList] := by
  decide

example : RtspRequest.parse (("OPTIONS u RTSP/1.0\n\r").toList)
    = Except.error (RtspError.Parse ParseErrorKind.InvalidHeader) := by
  rfl

end RtspRs
